import Mathlib

/-!
Verification development for the Uqbar repository (a Python automation toolkit).

Python modules are shallowly embedded: pure functions become Lean functions,
`getattr`/`setattr`-style dynamic attribute access is modelled by finite
attribute maps (`String → value`), Python exceptions become `Except`, Python
`float` scores are modelled over `ℚ`, and the filesystem is an explicit map
from path strings to file contents.  Each definition is translated from the
corresponding Python source (file and symbol named in its doc comment).
-/

set_option maxRecDepth 4000

namespace Uqbar

/-- Pointwise update of an attribute map: the semantics of Python `setattr`. -/
def attrSet {α : Type} (f : String → α) (k : String) (v : α) : String → α :=
  fun x => if x = k then v else f x

theorem attrSet_same {α : Type} (f : String → α) (k : String) (v : α) :
    attrSet f k v k = v := by
  simp [attrSet]

theorem attrSet_other {α : Type} (f : String → α) (k k' : String) (v : α)
    (h : k' ≠ k) : attrSet f k v k' = f k' := by
  simp [attrSet, h]

/-! ## `uqbar/acta/utils.py`: `GO_EMOTIONS_LABELS` and `MoodItem` -/

/-- `uqbar/acta/utils.py`, `GO_EMOTIONS_LABELS`: the fixed 28-label GoEmotions
taxonomy, in source order. -/
def GO_EMOTIONS_LABELS : List String :=
  [ "admiration", "amusement", "anger", "annoyance", "approval", "caring",
    "confusion", "curiosity", "desire", "disappointment", "disapproval",
    "disgust", "embarrassment", "excitement", "fear", "gratitude", "grief",
    "joy", "love", "nervousness", "optimism", "pride", "realization",
    "relief", "remorse", "sadness", "surprise", "neutral" ]

/-- A `MoodItem` score: Python `float | None`, with `float` modelled over `ℚ`. -/
abbrev EmoVal := Option ℚ

/-- `uqbar/acta/utils.py`, `class MoodItem`: a dataclass whose 28 fields are
exactly the `GO_EMOTIONS_LABELS`; modelled as an attribute map so that the
source's `getattr`/`setattr` loops translate directly. -/
abbrev MoodItem := String → EmoVal

/-- `MoodItem()` with all dataclass defaults (`None`). -/
def MoodItem.default : MoodItem := fun _ => none

/-- `uqbar/acta/utils.py`, `MoodItem.as_list`: the mood values as a list
ordered by `GO_EMOTIONS_LABELS` (`[getattr(self, name) for name in ...]`). -/
def MoodItem.as_list (m : MoodItem) : List EmoVal :=
  GO_EMOTIONS_LABELS.map m

/-- `uqbar/acta/utils.py`, `MoodItem.from_list`: raises `ValueError` when the
input length differs from `len(GO_EMOTIONS_LABELS)`, otherwise performs
`setattr(self, name, value)` for `zip(GO_EMOTIONS_LABELS, values)`. -/
def MoodItem.from_list (m : MoodItem) (values : List EmoVal) :
    Except String MoodItem :=
  if values.length ≠ GO_EMOTIONS_LABELS.length then
    .error "Expected 28 values."
  else
    .ok ((GO_EMOTIONS_LABELS.zip values).foldl
      (fun g p => attrSet g p.1 p.2) m)

theorem go_emotions_length : GO_EMOTIONS_LABELS.length = 28 := by decide

theorem go_emotions_nodup : GO_EMOTIONS_LABELS.Nodup := by decide

theorem foldl_attrSet_not_mem {α : Type} (ks : List String) (vs : List α)
    (g : String → α) (k : String) (hk : k ∉ ks) :
    ((ks.zip vs).foldl (fun g p => attrSet g p.1 p.2) g) k = g k := by
  induction ks generalizing vs g with
  | nil => rfl
  | cons a ks ih =>
    cases vs with
    | nil => rfl
    | cons v vs =>
      have ha : k ≠ a := fun h => hk (h ▸ List.mem_cons_self a ks)
      have hk' : k ∉ ks := fun h => hk (List.mem_cons_of_mem a h)
      show ((ks.zip vs).foldl (fun g p => attrSet g p.1 p.2) (attrSet g a v)) k
        = g k
      rw [ih vs (attrSet g a v) hk', attrSet_other g a k v ha]

theorem map_foldl_attrSet {α : Type} (ks : List String) (vs : List α)
    (g : String → α) (hnd : ks.Nodup) (hlen : ks.length = vs.length) :
    ks.map ((ks.zip vs).foldl (fun g p => attrSet g p.1 p.2) g) = vs := by
  induction ks generalizing vs g with
  | nil =>
    cases vs with
    | nil => rfl
    | cons v vs => simp at hlen
  | cons a ks ih =>
    cases vs with
    | nil => simp at hlen
    | cons v vs =>
      rw [List.nodup_cons] at hnd
      have hlen' : ks.length = vs.length := by simpa using hlen
      show ((ks.zip vs).foldl (fun g p => attrSet g p.1 p.2) (attrSet g a v)) a
          :: ks.map ((ks.zip vs).foldl (fun g p => attrSet g p.1 p.2)
            (attrSet g a v))
        = v :: vs
      rw [ih vs (attrSet g a v) hnd.2 hlen',
        foldl_attrSet_not_mem ks vs (attrSet g a v) a hnd.1, attrSet_same]

/-- C8: `GO_EMOTIONS_LABELS` has exactly 28 distinct labels;
`MoodItem.from_list` raises `ValueError` exactly when its argument's length
differs from 28; and for every list of 28 values, `from_list` followed by
`as_list` returns the same values in the same label order. -/
theorem moodItem_labels_roundtrip :
    GO_EMOTIONS_LABELS.length = 28 ∧ GO_EMOTIONS_LABELS.Nodup ∧
    ∀ (m : MoodItem) (vs : List EmoVal),
      ((MoodItem.from_list m vs = .error "Expected 28 values.") ↔
        vs.length ≠ 28) ∧
      (∀ m', MoodItem.from_list m vs = .ok m' → m'.as_list = vs) := by
  refine ⟨go_emotions_length, go_emotions_nodup, fun m vs => ⟨?_, ?_⟩⟩
  · rw [MoodItem.from_list, go_emotions_length]
    constructor
    · intro h
      by_contra hlen
      rw [if_neg (fun hc : vs.length ≠ 28 => hc (by omega : vs.length = 28))]
        at h
      exact Except.noConfusion h
    · intro hlen
      rw [if_pos hlen]
  · intro m' h
    rw [MoodItem.from_list] at h
    by_cases hlen : vs.length ≠ GO_EMOTIONS_LABELS.length
    · rw [if_pos hlen] at h
      exact absurd h (fun hh => Except.noConfusion hh)
    · rw [if_neg hlen] at h
      have hm : m' = (GO_EMOTIONS_LABELS.zip vs).foldl
          (fun g p => attrSet g p.1 p.2) m := by
        cases h
        rfl
      rw [hm, MoodItem.as_list]
      exact map_foldl_attrSet GO_EMOTIONS_LABELS vs m go_emotions_nodup
        (by omega)

/-- Witness for C8 at a concrete 28-element list and at the empty list. -/
theorem moodItem_labels_roundtrip_witness :
    MoodItem.as_list ((GO_EMOTIONS_LABELS.zip
        (List.replicate 28 (some (1 : ℚ)))).foldl
        (fun g p => attrSet g p.1 p.2) MoodItem.default)
      = List.replicate 28 (some (1 : ℚ)) ∧
    MoodItem.from_list MoodItem.default [] = .error "Expected 28 values." :=
  ⟨((moodItem_labels_roundtrip.2.2 MoodItem.default
      (List.replicate 28 (some (1 : ℚ)))).2 _ rfl),
   ((moodItem_labels_roundtrip.2.2 MoodItem.default []).1).mpr (by decide)⟩

/-! ## `uqbar/utils/stats.py`: `hyper_random` -/

/-- Python exceptions that the embedded functions can raise. -/
inductive PyErr
  | valueError (msg : String)
  | typeError (msg : String)
  | keyError (msg : String)
  | nameError (name : String)
deriving DecidableEq, Repr

/-- A dynamically-typed Python object, as far as `hyper_random` inspects it. -/
inductive PyObj
  | int (i : ℤ)
  | str (s : String)
  | list (xs : List PyObj)

/-- `isinstance(x, int)`. -/
def PyObj.isInt : PyObj → Bool
  | .int _ => true
  | _ => false

/-- Value of an object known to be an `int` (guarded by `isInt` at call site). -/
def PyObj.toInt : PyObj → ℤ
  | .int i => i
  | _ => 0

/-- One in-place swap `xs[i], xs[j] = xs[j], xs[i]` on a Python list. -/
def listSwap {α : Type} (xs : List α) (i j : Nat) : List α :=
  match xs[i]?, xs[j]? with
  | some a, some b => (xs.set i b).set j a
  | _, _ => xs

/-- `uqbar/utils/stats.py`, `hyper_random`: the shuffle-selection loop
`for i in range(len(shuffled) - 1, 0, -1): j = secrets.randbelow(i + 1); swap`. -/
def fisherYates {α : Type} (randbelow : Nat → Nat) (xs : List α) : List α :=
  (List.range' 1 (xs.length - 1)).reverse.foldl
    (fun acc i => listSwap acc i (randbelow (i + 1))) xs

/-- Python slice `xs[:n]` for an integer `n` (negative `n` counts from the
end). -/
def pySliceTo {α : Type} (xs : List α) (n : ℤ) : List α :=
  if n < 0 then xs.take ((xs.length + n).toNat) else xs.take n.toNat

/-- `uqbar/utils/stats.py`, `hyper_random`.  `secrets.randbits(64)` and
`secrets.randbelow(n)` are passed in as the entropy source (`randbelow n`
is a value in `[0, n)`); drawing is otherwise translated clause by clause.
The dead `isinstance(interval, list)` `TypeError` guard is unreachable in
this typed embedding because `interval` is `Option (List PyObj)`. -/
def hyper_random (interval : Option (List PyObj)) (number : ℤ) (mode : String)
    (randbits : Nat → ℤ) (randbelow : Nat → Nat) : Except PyErr PyObj :=
  match interval with
  | none =>
      -- CASE 1: no interval passed, return hyper-random ints
      if number = 1 then .ok (.int (randbits 64))
      else .ok (.list ((List.range number.toNat).map
        (fun i => .int (randbits i))))
  | some xs =>
      -- CASE 2: interval is a 2-int numeric range
      if xs.length = 2 ∧ xs.all PyObj.isInt then
        let a := (xs.getD 0 (.int 0)).toInt
        let b := (xs.getD 1 (.int 0)).toInt
        -- if a > b: a, b = b, a  (fix reversed interval)
        let p := if a > b then (b, a) else (a, b)
        if number = 1 then
          .ok (.int (p.1 + (randbelow (p.2 - p.1 + 1).toNat : ℤ)))
        else
          .ok (.list ((List.range number.toNat).map
            (fun _ => .int (p.1 + (randbelow (p.2 - p.1 + 1).toNat : ℤ)))))
      -- CASE 3: interval is a list of arbitrary objects
      else if xs.length = 0 then
        .error (.valueError "interval cannot be an empty list.")
      else if xs.length = 1 then
        -- only one element: always return it
        if number = 1 then .ok (xs.getD 0 (.int 0))
        else .ok (.list (List.replicate number.toNat (xs.getD 0 (.int 0))))
      else if ¬(mode = "with" ∨ mode = "without") then
        .error (.valueError "mode must be either with or without.")
      else if mode = "without" then
        if number > (xs.length : ℤ) then
          .error (.valueError "Cannot sample unique values from a smaller list.")
        else
          let shuffled := fisherYates randbelow xs
          let result := pySliceTo shuffled number
          if number = 1 then .ok (result.getD 0 (.int 0))
          else .ok (.list result)
      else
        if number = 1 then .ok (xs.getD (randbelow xs.length) (.int 0))
        else .ok (.list ((List.range number.toNat).map
          (fun _ => xs.getD (randbelow xs.length) (.int 0))))

/-- C10 counterexample: on the one-element object list `["x"]` with
`number = 2` and `mode = "without"`, `hyper_random` does not raise
`ValueError`; it returns the sole element repeated, so the claim that
`number > len(interval)` with `mode="without"` always raises fails. -/
theorem hyper_random_singleton_counterexample :
    hyper_random (some [.str "x"]) 2 "without" (fun _ => 0) (fun _ => 0)
      = .ok (.list [.str "x", .str "x"]) := rfl

theorem hyper_random_pair (a b : ℤ) (randbits : Nat → ℤ)
    (randbelow : Nat → Nat) :
    hyper_random (some [.int a, .int b]) 1 "without" randbits randbelow
      = .ok (.int (min a b + (randbelow (max a b - min a b + 1).toNat : ℤ))) := by
  by_cases hab : a > b
  · simp [hyper_random, PyObj.toInt, PyObj.isInt, hab,
      min_eq_right (le_of_lt hab), max_eq_left (le_of_lt hab)]
  · simp [hyper_random, PyObj.toInt, PyObj.isInt, hab,
      min_eq_left (le_of_not_lt hab), max_eq_right (le_of_not_lt hab)]

/-- C10 (amended): for ints `a, b`, `hyper_random(interval=[a, b], number=1)`
returns an int in `[min a b, max a b]` (a reversed interval is silently
fixed); an empty interval list raises `ValueError`; and with
`mode="without"`, `number` exceeding the list length raises `ValueError` for
every object list of at least two elements that is not an all-int pair
(a one-element list instead returns its element repeated, per the
counterexample). -/
theorem hyper_random_props :
    (∀ (a b : ℤ) (randbits : Nat → ℤ) (randbelow : Nat → Nat),
      (∀ n, 0 < n → randbelow n < n) →
      hyper_random (some [.int a, .int b]) 1 "without" randbits randbelow
          = .ok (.int (min a b + (randbelow (max a b - min a b + 1).toNat : ℤ)))
        ∧ min a b ≤ min a b + (randbelow (max a b - min a b + 1).toNat : ℤ)
        ∧ min a b + (randbelow (max a b - min a b + 1).toNat : ℤ) ≤ max a b) ∧
    (∀ (number : ℤ) (mode : String) (randbits : Nat → ℤ)
      (randbelow : Nat → Nat),
      hyper_random (some []) number mode randbits randbelow
        = .error (.valueError "interval cannot be an empty list.")) ∧
    (∀ (xs : List PyObj) (number : ℤ) (randbits : Nat → ℤ)
      (randbelow : Nat → Nat),
      2 ≤ xs.length → ¬(xs.length = 2 ∧ xs.all PyObj.isInt) →
      number > (xs.length : ℤ) →
      hyper_random (some xs) number "without" randbits randbelow
        = .error
            (.valueError "Cannot sample unique values from a smaller list.")) := by
  refine ⟨fun a b randbits randbelow hrb => ?_, fun number mode _ _ => ?_,
    fun xs number _ randbelow h2 hni hgt => ?_⟩
  · have hpos : (0 : Nat) < (max a b - min a b + 1).toNat := by
      have : min a b ≤ max a b := min_le_max
      omega
    have hlt := hrb _ hpos
    have hle : min a b ≤ max a b := min_le_max
    exact ⟨hyper_random_pair a b randbits randbelow, by omega, by omega⟩
  · rfl
  · simp only [hyper_random]
    rw [if_neg hni]
    rw [if_neg (by omega : ¬xs.length = 0), if_neg (by omega : ¬xs.length = 1)]
    simp [hgt]

/-- Witness for C10 at concrete inputs: the reversed interval `[5, 2]` with a
zero entropy draw yields `2`, and oversampling a two-string list raises
`ValueError`. -/
theorem hyper_random_props_witness :
    hyper_random (some [.int 5, .int 2]) 1 "without" (fun _ => 0) (fun _ => 0)
      = .ok (.int 2) ∧
    hyper_random (some [.str "a", .str "b"]) 3 "without" (fun _ => 0)
      (fun _ => 0)
      = .error (.valueError "Cannot sample unique values from a smaller list.") := by
  constructor
  · have h := (hyper_random_props.1 5 2 (fun _ => 0) (fun _ => 0)
      (fun n hn => hn)).1
    simpa using h
  · exact hyper_random_props.2.2 [.str "a", .str "b"] 3 (fun _ => 0)
      (fun _ => 0) (by decide) (by decide) (by decide)

/-! ## `uqbar/acta/trends.py`: `Trend`, paywall detection -/

/-- A runtime value held by a `Trend` dataclass attribute. -/
inductive TrendVal
  | none
  | str (s : String)
  | bool (b : Bool)
  | float (q : ℚ)
  | path (s : String)
  | list (xs : List TrendVal)

/-- Python truthiness for `TrendVal` (a `Path` object is always truthy). -/
def TrendVal.truthy : TrendVal → Bool
  | .none => false
  | .str s => s ≠ ""
  | .bool b => b
  | .float q => q ≠ 0
  | .path _ => true
  | .list xs => ¬xs.isEmpty

/-- `uqbar/acta/trends.py`: a `Trend` record, modelled as an attribute map so
that the source's `fields`/`getattr`/`setattr` loops translate directly. -/
abbrev TrendE := String → TrendVal

/-- The `Trend` dataclass field names, in source order. -/
def trendFields : List String :=
  [ "title", "volume", "picture_source",
    "news_item_title_1", "news_item_url_1", "news_item_source_1",
    "news_item_paywall_flag_1",
    "news_item_title_2", "news_item_url_2", "news_item_source_2",
    "news_item_paywall_flag_2",
    "news_item_title_3", "news_item_url_3", "news_item_source_3",
    "news_item_paywall_flag_3",
    "content_path", "image_path", "video_path", "audio_path",
    "tts_prompt_query", "tts_file_prompt_query", "image_mood_prompt_query",
    "image_mood_file_prompt_query",
    "tts_presult_full_text", "tts_presult_summary_text",
    "image_presult_keywords", "mood_presult_keyword" ]

/-- `Trend()` with all dataclass defaults: `None` for the optional fields,
`Path()` (which is `Path(".")`, printed `"."`) for the four path fields, and
`[]` for the four prompt-response list fields. -/
def trendDefault : TrendE := fun f =>
  if f = "content_path" ∨ f = "image_path" ∨ f = "video_path" ∨
      f = "audio_path" then .path "."
  else if f = "tts_presult_full_text" ∨ f = "tts_presult_summary_text" ∨
      f = "image_presult_keywords" ∨ f = "mood_presult_keyword" then .list []
  else .none

/-- `uqbar/acta/trends.py`, `PAYWALL_DOMAINS` (a `set` literal; membership
tests do not depend on iteration order, so a list in source order is used). -/
def PAYWALL_DOMAINS : List String :=
  [ "nytimes.com", "wsj.com", "ft.com", "economist.com", "bloomberg.com",
    "washingtonpost.com", "theatlantic.com", "newyorker.com", "times.com",
    "thetimes.co.uk", "telegraph.co.uk" ]

/-- `uqbar/acta/trends.py`, `_URL_TO_FLAG` (a dict literal; Python dicts
iterate in insertion order). -/
def URL_TO_FLAG : List (String × String) :=
  [ ("news_item_url_1", "news_item_paywall_flag_1"),
    ("news_item_url_2", "news_item_paywall_flag_2"),
    ("news_item_url_3", "news_item_paywall_flag_3") ]

/-- ASCII lowercasing of one character (`str.lower` on the hosts involved). -/
def lowerChar (c : Char) : Char :=
  if 'A' ≤ c ∧ c ≤ 'Z' then Char.ofNat (c.toNat + 32) else c

/-- `pattern` is a prefix of `xs` (kernel-reducible helper). -/
def charsStartWith : List Char → List Char → Bool
  | _, [] => true
  | [], _ :: _ => false
  | c :: cs, d :: ds => c = d && charsStartWith cs ds

/-- `s.endswith(t)` (kernel-reducible helper). -/
def strEndsWith (s t : String) : Bool :=
  charsStartWith s.toList.reverse t.toList.reverse

/-- A character allowed in a URL scheme after the leading letter. -/
def isSchemeChar (c : Char) : Bool :=
  c.isAlphanum || c = '+' || c = '-' || c = '.'

/-- The scheme-stripping step of `urllib.parse.urlparse`: when the text
before the first `:` is a well-formed scheme (a letter followed by
letters, digits, `+`, `-`, `.`), drop it together with the colon. -/
def stripScheme (url : String) : String :=
  let cs := url.toList
  let pre := cs.takeWhile (fun c => c ≠ ':')
  if pre.length < cs.length ∧ pre ≠ [] ∧ (pre.headD 'x').isAlpha ∧
      pre.all isSchemeChar then
    String.mk (cs.drop (pre.length + 1))
  else url

/-- `urllib.parse.urlparse(url).netloc`: after scheme stripping, the netloc
is the text between a leading `//` and the next `/`, `?` or `#`; if the
remainder does not start with `//`, the netloc is empty. -/
def pyUrlNetloc (url : String) : String :=
  let rest := (stripScheme url).toList
  if charsStartWith rest ['/', '/'] then
    String.mk ((rest.drop 2).takeWhile
      (fun c => c ≠ '/' ∧ c ≠ '?' ∧ c ≠ '#'))
  else ""

/-- The host inspected by `_is_paywalled`: the netloc, lowercased, with any
`:port` suffix removed (`host.split(":")[0]`). -/
def urlHost (url : String) : String :=
  String.mk (((pyUrlNetloc url).toList.map lowerChar).takeWhile
    (fun c => c ≠ ':'))

/-- `any(host == d or host.endswith("." + d) for d in PAYWALL_DOMAINS)`. -/
def hostMatches (host : String) : Bool :=
  PAYWALL_DOMAINS.any (fun d => host = d || strEndsWith host ("." ++ d))

/-- `uqbar/acta/trends.py`, `_is_paywalled` on a string argument. -/
def is_paywalled_str (url : String) : Bool :=
  if url = "" then false else hostMatches (urlHost url)

/-- One iteration of the `Trend.update_paywall` loop for one
`(url_field, flag_field)` pair: a falsy URL value is skipped, a non-empty
string sets the flag to `_is_paywalled(url)`, and a truthy non-string makes
`urlparse` raise `TypeError`. -/
def paywallStep (t : TrendE) (kv : String × String) : Except PyErr TrendE :=
  match t kv.1 with
  | .str s =>
      if s = "" then .ok t
      else .ok (attrSet t kv.2 (.bool (is_paywalled_str s)))
  | .none => .ok t
  | v =>
      if v.truthy then .error (.typeError "urlparse expected a string")
      else .ok t

/-- `uqbar/acta/trends.py`, `Trend.update_paywall`: the loop over
`_URL_TO_FLAG.items()`. -/
def update_paywall (t : TrendE) : Except PyErr TrendE :=
  URL_TO_FLAG.foldlM paywallStep t

/-- The same step under the string-or-`None` hypothesis (no exception). -/
def paywallStepPure (t : TrendE) (kv : String × String) : TrendE :=
  match t kv.1 with
  | .str s =>
      if s = "" then t else attrSet t kv.2 (.bool (is_paywalled_str s))
  | _ => t

/-- URL attribute values the claim quantifies over: a string or `None`. -/
def TrendVal.isStrOrNone : TrendVal → Bool
  | .str _ => true
  | .none => true
  | _ => false

theorem paywallStep_pure (t : TrendE) (kv : String × String)
    (h : (t kv.1).isStrOrNone = true) :
    paywallStep t kv = .ok (paywallStepPure t kv) := by
  unfold paywallStep paywallStepPure
  cases hv : t kv.1 <;> simp_all [TrendVal.isStrOrNone]
  split <;> rfl

theorem paywallStepPure_other (t : TrendE) (kv : String × String)
    (f : String) (hf : f ≠ kv.2) : paywallStepPure t kv f = t f := by
  unfold paywallStepPure
  cases t kv.1 <;> simp [attrSet, hf]
  split <;> simp [attrSet, hf]

theorem paywallStepPure_flag (t : TrendE) (kv : String × String) (s : String)
    (hs : t kv.1 = .str s) (hne : s ≠ "") :
    paywallStepPure t kv kv.2 = .bool (is_paywalled_str s) := by
  unfold paywallStepPure
  rw [hs]
  show (if s = "" then t
    else attrSet t kv.2 (.bool (is_paywalled_str s))) kv.2 = _
  rw [if_neg hne, attrSet_same]

theorem paywallStepPure_skip (t : TrendE) (kv : String × String)
    (h : t kv.1 = .none ∨ t kv.1 = .str "") : paywallStepPure t kv = t := by
  unfold paywallStepPure
  rcases h with h | h
  · rw [h]
  · rw [h]
    show (if "" = "" then t
      else attrSet t kv.2 (.bool (is_paywalled_str ""))) = t
    rw [if_pos rfl]

theorem foldlM_three (f : TrendE → (String × String) → Except PyErr TrendE)
    (t t1 t2 t3 : TrendE) (p1 p2 p3 : String × String)
    (e1 : f t p1 = .ok t1) (e2 : f t1 p2 = .ok t2) (e3 : f t2 p3 = .ok t3) :
    [p1, p2, p3].foldlM f t = .ok t3 := by
  show (f t p1 >>= fun b => f b p2 >>= fun b => f b p3 >>= fun b => pure b)
      = .ok t3
  rw [e1]
  show (f t1 p2 >>= fun b => f b p3 >>= fun b => pure b) = .ok t3
  rw [e2]
  show (f t2 p3 >>= fun b => pure b) = .ok t3
  rw [e3]
  rfl

/-- C7: after `Trend.update_paywall()`, for each `i` a non-empty string URL
sets `news_item_paywall_flag_i` to whether the URL's host (port stripped,
case-insensitive) equals a paywall domain or is a subdomain of one; a `None`
or empty URL leaves the flag unchanged; and every attribute other than the
three flags is unchanged. -/
theorem update_paywall_spec (t : TrendE)
    (h1 : (t "news_item_url_1").isStrOrNone = true)
    (h2 : (t "news_item_url_2").isStrOrNone = true)
    (h3 : (t "news_item_url_3").isStrOrNone = true) :
    ∃ t', update_paywall t = .ok t' ∧
      (∀ s, t "news_item_url_1" = .str s → s ≠ "" →
        t' "news_item_paywall_flag_1" = .bool (hostMatches (urlHost s))) ∧
      ((t "news_item_url_1" = .none ∨ t "news_item_url_1" = .str "") →
        t' "news_item_paywall_flag_1" = t "news_item_paywall_flag_1") ∧
      (∀ s, t "news_item_url_2" = .str s → s ≠ "" →
        t' "news_item_paywall_flag_2" = .bool (hostMatches (urlHost s))) ∧
      ((t "news_item_url_2" = .none ∨ t "news_item_url_2" = .str "") →
        t' "news_item_paywall_flag_2" = t "news_item_paywall_flag_2") ∧
      (∀ s, t "news_item_url_3" = .str s → s ≠ "" →
        t' "news_item_paywall_flag_3" = .bool (hostMatches (urlHost s))) ∧
      ((t "news_item_url_3" = .none ∨ t "news_item_url_3" = .str "") →
        t' "news_item_paywall_flag_3" = t "news_item_paywall_flag_3") ∧
      (∀ f, f ≠ "news_item_paywall_flag_1" → f ≠ "news_item_paywall_flag_2" →
        f ≠ "news_item_paywall_flag_3" → t' f = t f) ∧
      (∀ host, hostMatches host = true ↔
        ∃ d ∈ PAYWALL_DOMAINS, host = d ∨ strEndsWith host ("." ++ d) = true) := by
  set p1 : String × String :=
    ("news_item_url_1", "news_item_paywall_flag_1") with hp1
  set p2 : String × String :=
    ("news_item_url_2", "news_item_paywall_flag_2") with hp2
  set p3 : String × String :=
    ("news_item_url_3", "news_item_paywall_flag_3") with hp3
  have hp1fst : p1.1 = "news_item_url_1" := rfl
  have hp2fst : p2.1 = "news_item_url_2" := rfl
  have hp3fst : p3.1 = "news_item_url_3" := rfl
  set t1 : TrendE := paywallStepPure t p1 with ht1
  set t2 : TrendE := paywallStepPure t1 p2 with ht2
  set t3 : TrendE := paywallStepPure t2 p3 with ht3
  have hu2 : t1 "news_item_url_2" = t "news_item_url_2" :=
    paywallStepPure_other t p1 _ (by decide)
  have hu3a : t1 "news_item_url_3" = t "news_item_url_3" :=
    paywallStepPure_other t p1 _ (by decide)
  have hu3b : t2 "news_item_url_3" = t1 "news_item_url_3" :=
    paywallStepPure_other t1 p2 _ (by decide)
  have e1 : paywallStep t p1 = .ok t1 := paywallStep_pure t p1 h1
  have e2 : paywallStep t1 p2 = .ok t2 :=
    paywallStep_pure t1 p2 (by rw [hp2fst, hu2]; exact h2)
  have e3 : paywallStep t2 p3 = .ok t3 :=
    paywallStep_pure t2 p3 (by rw [hp3fst, hu3b, hu3a]; exact h3)
  have hflag1 : t3 "news_item_paywall_flag_1" = t1 "news_item_paywall_flag_1" := by
    rw [ht3, paywallStepPure_other t2 p3 _ (by decide), ht2,
      paywallStepPure_other t1 p2 _ (by decide)]
  have hflag2 : t3 "news_item_paywall_flag_2" = t2 "news_item_paywall_flag_2" :=
    by rw [ht3, paywallStepPure_other t2 p3 _ (by decide)]
  refine ⟨t3, foldlM_three paywallStep t t1 t2 t3 p1 p2 p3 e1 e2 e3,
    ?_, ?_, ?_, ?_, ?_, ?_, ?_, ?_⟩
  · intro s hs hne
    rw [hflag1, ht1, paywallStepPure_flag t p1 s hs hne,
      is_paywalled_str, if_neg hne]
  · intro hsk
    rw [hflag1, ht1, paywallStepPure_skip t p1 hsk]
  · intro s hs hne
    rw [hflag2, ht2, paywallStepPure_flag t1 p2 s
      (by rw [hp2fst, hu2]; exact hs) hne, is_paywalled_str, if_neg hne]
  · intro hsk
    rw [hflag2, ht2, paywallStepPure_skip t1 p2
      (by rw [hp2fst, hu2]; exact hsk),
      ht1, paywallStepPure_other t p1 _ (by decide)]
  · intro s hs hne
    rw [ht3, paywallStepPure_flag t2 p3 s
      (by rw [hp3fst, hu3b, hu3a]; exact hs) hne,
      is_paywalled_str, if_neg hne]
  · intro hsk
    rw [ht3, paywallStepPure_skip t2 p3
      (by rw [hp3fst, hu3b, hu3a]; exact hsk),
      ht2, paywallStepPure_other t1 p2 _ (by decide),
      ht1, paywallStepPure_other t p1 _ (by decide)]
  · intro f hf1 hf2 hf3
    rw [ht3, paywallStepPure_other t2 p3 _ hf3, ht2,
      paywallStepPure_other t1 p2 _ hf2, ht1,
      paywallStepPure_other t p1 _ hf1]
  · intro host
    simp [hostMatches, List.any_eq_true]

/-- Witness for C7: a paywalled NYT URL in slot 1, a free URL in slot 2, and
`None` in slot 3. -/
theorem update_paywall_spec_witness :
    ∃ t', update_paywall
        (attrSet (attrSet trendDefault "news_item_url_1"
          (.str "https://www.nytimes.com/2026/story.html"))
          "news_item_url_2" (.str "https://example.com/free"))
        = .ok t' ∧
      t' "news_item_paywall_flag_1" = .bool true ∧
      t' "news_item_paywall_flag_2" = .bool false ∧
      t' "news_item_paywall_flag_3" = TrendVal.none := by
  obtain ⟨t', heq, f1, _, f2, _, _, sk3, other, _⟩ :=
    update_paywall_spec
      (attrSet (attrSet trendDefault "news_item_url_1"
        (.str "https://www.nytimes.com/2026/story.html"))
        "news_item_url_2" (.str "https://example.com/free"))
      (by rfl) (by rfl) (by rfl)
  refine ⟨t', heq, ?_, ?_, ?_⟩
  · rw [f1 "https://www.nytimes.com/2026/story.html" rfl (by decide)]
    have : hostMatches (urlHost "https://www.nytimes.com/2026/story.html")
        = true := by decide
    rw [this]
  · rw [f2 "https://example.com/free" rfl (by decide)]
    have : hostMatches (urlHost "https://example.com/free") = false := by
      decide
    rw [this]
  · rw [sk3 (Or.inl rfl)]
    rfl

/-! ## `uqbar/acta/trends.py`: checkpoint serialization -/

/-- The literal annotation text of each `Trend` field.  Because `trends.py`
has `from __future__ import annotations` (PEP 563), `dataclasses.fields`
exposes `f.type` as this unevaluated string, not as a type object. -/
def trendFieldTypeStr (f : String) : String :=
  if f = "volume" then "float | None"
  else if f = "news_item_paywall_flag_1" ∨ f = "news_item_paywall_flag_2" ∨
      f = "news_item_paywall_flag_3" then "bool | None"
  else if f = "content_path" ∨ f = "image_path" ∨ f = "video_path" ∨
      f = "audio_path" then "Path"
  else if f = "tts_presult_full_text" then "list[list[list[str]]]"
  else if f = "tts_presult_summary_text" ∨ f = "mood_presult_keyword" then
    "list[str]"
  else if f = "image_presult_keywords" then "list[list[str]]"
  else "str | None"

/-- `uqbar/acta/trends.py`, `_dict_to_trend`: the `path_field_names` set,
`f.type is Path or str(f.type) == "pathlib.Path"`.  Under PEP 563 `f.type`
is the annotation string (`"Path"` for the path fields), so the identity
test against the class `Path` is always `False` and the text comparison
against `"pathlib.Path"` never matches either. -/
def trendPathFieldNames : List String :=
  trendFields.filter (fun f => trendFieldTypeStr f = "pathlib.Path")

/-- `str(v)` applied on save when `isinstance(v, Path)`; other values are
stored as they are. -/
def trendValSerialize : TrendVal → TrendVal
  | .path s => .str s
  | v => v

/-- `Path(v)` for the snapshot values fed to it (strings in practice). -/
def pyPathOf : TrendVal → TrendVal
  | .str s => .path s
  | .path s => .path s
  | _ => .path ""

/-- `uqbar/acta/trends.py`, `_trend_to_dict`. -/
def _trend_to_dict (t : TrendE) : List (String × TrendVal) :=
  trendFields.map (fun f => (f, trendValSerialize (t f)))

/-- `uqbar/acta/trends.py`, `_dict_to_trend`: start from a default `Trend`,
ignore unknown keys, rebuild `Path` objects only for `path_field_names`
(which is empty, see `trendPathFieldNames`), and `setattr` the raw snapshot
value otherwise. -/
def _dict_to_trend (data : List (String × TrendVal)) : TrendE :=
  data.foldl (fun t kv =>
    if kv.1 ∈ trendFields then
      if kv.1 ∈ trendPathFieldNames then
        match kv.2 with
        | .none => attrSet t kv.1 .none
        | v => attrSet t kv.1 (pyPathOf v)
      else attrSet t kv.1 kv.2
    else t) trendDefault

/-- The `_empty_parts()` dict. -/
def emptyParts : List (String × Option String) :=
  [ ("year", none), ("month", none), ("day", none),
    ("hour", none), ("minute", none), ("second", none) ]

/-- `uqbar/acta/trends.py`, `class TrendList`: shared metadata plus the
ordered `_items` list (the error-message fields are not serialized and are
omitted here). -/
structure TrendListE where
  datetime_utc : Option String := none
  datetime_br : Option String := none
  datetime_us : Option String := none
  datetime_utc_parts : List (String × Option String) := emptyParts
  datetime_br_parts : List (String × Option String) := emptyParts
  datetime_us_parts : List (String × Option String) := emptyParts
  items : List TrendE := []

/-- The JSON payload written by `save_trendlist` (JSON text encoding and
decoding of this object is faithful and is elided). -/
structure Checkpoint where
  schema_version : String
  datetime_utc : Option String
  datetime_br : Option String
  datetime_us : Option String
  datetime_utc_parts : List (String × Option String)
  datetime_br_parts : List (String × Option String)
  datetime_us_parts : List (String × Option String)
  items : List (List (String × TrendVal))

/-- `uqbar/acta/trends.py`, `save_trendlist`: builds the payload dict and
writes it as JSON. -/
def save_trendlist (tl : TrendListE) : Checkpoint :=
  { schema_version := "1.0"
    datetime_utc := tl.datetime_utc
    datetime_br := tl.datetime_br
    datetime_us := tl.datetime_us
    datetime_utc_parts := tl.datetime_utc_parts
    datetime_br_parts := tl.datetime_br_parts
    datetime_us_parts := tl.datetime_us_parts
    items := tl.items.map _trend_to_dict }

/-- `uqbar/acta/trends.py`, `load_trendlist`: rebuilds a `TrendList` from the
payload; the `parts` dicts overwrite the defaults when present (always, in
this typed payload), and each item goes through `_dict_to_trend`. -/
def load_trendlist (c : Checkpoint) : TrendListE :=
  { datetime_utc := c.datetime_utc
    datetime_br := c.datetime_br
    datetime_us := c.datetime_us
    datetime_utc_parts := c.datetime_utc_parts
    datetime_br_parts := c.datetime_br_parts
    datetime_us_parts := c.datetime_us_parts
    items := c.items.map _dict_to_trend }

/-- C2 (code bug): `path_field_names` is empty because PEP 563 makes
`f.type` a string, so a save/load round trip returns `content_path` as the
plain string `"."` instead of the `Path` object `Path(".")` that was saved —
contradicting the source's own comment "Reconstruct Path on load".  The
metadata still round trips. -/
theorem trendlist_roundtrip_path_bug :
    trendPathFieldNames = [] ∧
    (load_trendlist (save_trendlist { items := [trendDefault] })).items.map
      (fun t => t "content_path") = [.str "."] ∧
    ([trendDefault].map (fun t => t "content_path") = [.path "."]) ∧
    (load_trendlist (save_trendlist { items := [trendDefault] })).datetime_utc
      = none ∧
    TrendListE.datetime_br_parts
      (load_trendlist (save_trendlist { items := [trendDefault] }))
      = emptyParts := by
  refine ⟨by decide, rfl, rfl, rfl, rfl⟩

/-! ## `uqbar/acta/core.py`: `Semaphore`, `_resolve_semaphore` -/

/-- `uqbar/acta/core.py`, `SemaphoreKey`: the `IntEnum` with values
`ZERO = 0` … `THIRTEEN = 13`. -/
abbrev SemaphoreKey := Fin 14

/-- `uqbar/acta/core.py`, `class Semaphore`: the per-stage boolean flag set,
modelled as its `_values` dict over all fourteen keys. -/
abbrev SemaphoreE := SemaphoreKey → Bool

/-- `Semaphore._normalize` on an `int` key: `SemaphoreKey(key)` raises
`ValueError` outside `0..13`, re-raised as `KeyError`. -/
def semaphoreNormalize (k : ℤ) : Except PyErr SemaphoreKey :=
  if h : 0 ≤ k ∧ k < 14 then .ok ⟨k.toNat, by omega⟩
  else .error (.keyError "Invalid semaphore key")

/-- `Semaphore.set` with an `int` key. -/
def semaphoreSet (s : SemaphoreE) (k : ℤ) (v : Bool) :
    Except PyErr SemaphoreE :=
  match semaphoreNormalize k with
  | .ok key => .ok (fun j => if j = key then v else s j)
  | .error e => .error e

/-- `Semaphore.update_many`. -/
def semaphoreUpdateMany (s : SemaphoreE) (keys : List ℤ) (v : Bool) :
    Except PyErr SemaphoreE :=
  keys.foldlM (fun s k => semaphoreSet s k v) s

/-- `Semaphore.there_is_higher`: any flag at or above `key` is enabled. -/
def semaphoreThereIsHigher (s : SemaphoreE) (key : SemaphoreKey) : Bool :=
  (List.finRange 14).any (fun i => key ≤ i && s i)

/-- Python `str.strip` on a character list. -/
def stripChars (cs : List Char) : List Char :=
  ((cs.dropWhile Char.isWhitespace).reverse.dropWhile
    Char.isWhitespace).reverse

/-- A separator for `re.split(r"[,\s;]+", s)`. -/
def isSepChar (c : Char) : Bool :=
  c = ',' || c = ';' || c.isWhitespace

/-- `[t for t in re.split(r"[,\s;]+", s) if t]`: the non-empty maximal runs
of non-separator characters. -/
def splitTokensAux : List Char → List Char → List (List Char)
  | [], acc => if acc.isEmpty then [] else [acc.reverse]
  | c :: cs, acc =>
      if isSepChar c then
        if acc.isEmpty then splitTokensAux cs []
        else acc.reverse :: splitTokensAux cs []
      else splitTokensAux cs (c :: acc)

/-- `tok.isdigit()`: non-empty and all digits. -/
def isDigits (cs : List Char) : Bool :=
  ¬cs.isEmpty && cs.all Char.isDigit

/-- `int(tok)` for a digit string. -/
def digitsToNat (cs : List Char) : Nat :=
  cs.foldl (fun acc c => acc * 10 + (c.toNat - 48)) 0

/-- The integers one token of `_resolve_semaphore` contributes to `ints`:
a digit token parses to itself, a `lo-hi` range token (split at the first
`-`, both parts digit strings) expands to `range(lo, hi + 1)` after fixing
a reversed range, and anything else is ignored with a printed warning. -/
def tokenInts (tok : List Char) : List ℤ :=
  if tok.contains '-' then
    let aStr := stripChars (tok.takeWhile (fun c => c ≠ '-'))
    let bStr := stripChars ((tok.dropWhile (fun c => c ≠ '-')).drop 1)
    if isDigits aStr ∧ isDigits bStr then
      let a := digitsToNat aStr
      let b := digitsToNat bStr
      let lo := if a ≤ b then a else b
      let hi := if a ≤ b then b else a
      (List.range' lo (hi + 1 - lo)).map Int.ofNat
    else []
  else if isDigits tok then [(digitsToNat tok : ℤ)]
  else []

/-- `uqbar/acta/core.py`, `_resolve_semaphore`: `None`/blank input enables
all steps, otherwise the parsed step indices are enabled via
`Semaphore.update_many` (which goes through `_normalize` and can raise
`KeyError`); if no valid indices were parsed, all steps are enabled. -/
def resolve_semaphore (raw : Option String) : Except PyErr SemaphoreE :=
  match raw with
  | none => .ok (fun _ => true)
  | some s =>
      if (stripChars s.toList).isEmpty then .ok (fun _ => true)
      else
        let tokens := splitTokensAux s.toList []
        let ints := tokens.foldr (fun tok acc => tokenInts tok ++ acc) []
        if ints.isEmpty then .ok (fun _ => true)
        else semaphoreUpdateMany (fun _ => false) ints true

/-- C9 (code bug): `_resolve_semaphore` promises (docstring: "Never raises;
invalid tokens are ignored with a warning") but `update_many` →
`set` → `_normalize` raises `KeyError` for any parsed integer outside the
`SemaphoreKey` range `0..13`, e.g. on input `"14"` or the range `"7-20"`.
In-range inputs behave as claimed. -/
theorem resolve_semaphore_keyerror :
    resolve_semaphore (some "14") = .error (.keyError "Invalid semaphore key") ∧
    resolve_semaphore (some "7-20")
      = .error (.keyError "Invalid semaphore key") ∧
    resolve_semaphore none = .ok (fun _ => true) ∧
    resolve_semaphore (some "   ") = .ok (fun _ => true) ∧
    resolve_semaphore (some "xyz") = .ok (fun _ => true) ∧
    (resolve_semaphore (some "1, 3;7-9")).map
        (fun f => (List.finRange 14).map f)
      = .ok [false, true, false, true, false, false, false,
             true, true, true, false, false, false, false] := by
  refine ⟨rfl, rfl, rfl, rfl, rfl, rfl⟩

/-! ## `uqbar/acta/core.py`: `_run_or_load` and `acta_core` -/

/-- The value returned by a pipeline stage callable: a `TrendList` or
anything else (`isinstance(new_state, TrendList)` is the only inspection). -/
inductive RunVal
  | tl (t : TrendListE)
  | other

/-- The checkpoint filesystem: path → saved payload. -/
abbrev FS := String → Option Checkpoint

/-- `uqbar/acta/core.py`, `_run_or_load`.  If the stage flag is enabled,
run and checkpoint (only a `TrendList` result is saved); otherwise return
the input state when no checkpoint exists (printing when a later stage is
enabled), or load the checkpoint.  `load_trendlist` always returns a
`TrendList` when it returns at all, so the `sys.exit(1)` guard for a
non-`TrendList` load is unreachable. -/
def run_or_load (key : SemaphoreKey) (finalphore : SemaphoreE)
    (workingPath : String) (filename : String) (state : TrendListE)
    (run : TrendListE → RunVal) (fs : FS) : RunVal × FS :=
  let checkpointPath := workingPath ++ "/" ++ filename
  if finalphore key then
    match run state with
    | .tl newState =>
        (.tl newState,
          fun p => if p = checkpointPath then some (save_trendlist newState)
            else fs p)
    | .other => (.other, fs)
  else
    match fs checkpointPath with
    | none => (.tl state, fs)
    | some c => (.tl (load_trendlist c), fs)

/-- C1: `_run_or_load` is flag-gated checkpointing: with the flag enabled it
applies `run`, saves the result to `working_path/filename` exactly when the
result is a `TrendList`, and returns the result; with the flag disabled it
loads and returns the checkpoint when the file exists (for every `run`, so
`run` is not invoked), and returns the input state unchanged otherwise. -/
theorem run_or_load_spec (key : SemaphoreKey) (finalphore : SemaphoreE)
    (workingPath filename : String) (state : TrendListE)
    (run : TrendListE → RunVal) (fs : FS) :
    (finalphore key = true →
      (∀ t, run state = .tl t →
        run_or_load key finalphore workingPath filename state run fs
          = (.tl t, fun p =>
              if p = workingPath ++ "/" ++ filename
              then some (save_trendlist t) else fs p)) ∧
      (run state = .other →
        run_or_load key finalphore workingPath filename state run fs
          = (.other, fs))) ∧
    (finalphore key = false →
      (fs (workingPath ++ "/" ++ filename) = none →
        run_or_load key finalphore workingPath filename state run fs
          = (.tl state, fs)) ∧
      (∀ c, fs (workingPath ++ "/" ++ filename) = some c →
        run_or_load key finalphore workingPath filename state run fs
          = (.tl (load_trendlist c), fs))) := by
  constructor
  · intro hkey
    constructor
    · intro t ht
      rw [run_or_load]
      rw [if_pos hkey, ht]
    · intro ht
      rw [run_or_load]
      rw [if_pos hkey, ht]
  · intro hkey
    constructor
    · intro hfs
      rw [run_or_load]
      rw [if_neg (by simp [hkey]), hfs]
    · intro c hfs
      rw [run_or_load]
      rw [if_neg (by simp [hkey]), hfs]

/-- Witness for C1: one enabled stage saving its result, one disabled stage
with no checkpoint returning the state, one disabled stage loading the
checkpoint it finds. -/
theorem run_or_load_spec_witness :
    run_or_load 1 (fun _ => true) "/w" "trends_1.json" {}
        (fun _ => .tl { datetime_utc := some "d" }) (fun _ => none)
      = (.tl { datetime_utc := some "d" }, fun p =>
          if p = "/w" ++ "/" ++ "trends_1.json"
          then some (save_trendlist { datetime_utc := some "d" })
          else none) ∧
    run_or_load 1 (fun _ => false) "/w" "trends_1.json" {}
        (fun _ => .other) (fun _ => none)
      = (.tl {}, fun _ => none) ∧
    run_or_load 1 (fun _ => false) "/w" "trends_1.json" {}
        (fun _ => .other)
        (fun _ => some (save_trendlist { datetime_us := some "u" }))
      = (.tl (load_trendlist (save_trendlist { datetime_us := some "u" })),
          fun _ => some (save_trendlist { datetime_us := some "u" })) := by
  refine ⟨?_, ?_, ?_⟩
  · exact ((run_or_load_spec 1 (fun _ => true) "/w" "trends_1.json" {}
      (fun _ => .tl { datetime_utc := some "d" }) (fun _ => none)).1
      rfl).1 _ rfl
  · exact ((run_or_load_spec 1 (fun _ => false) "/w" "trends_1.json" {}
      (fun _ => .other) (fun _ => none)).2 rfl).1 rfl
  · exact ((run_or_load_spec 1 (fun _ => false) "/w" "trends_1.json" {}
      (fun _ => .other)
      (fun _ => some (save_trendlist { datetime_us := some "u" }))).2
      rfl).2 _ rfl

/-- `uqbar/acta/core.py`, `acta_core`, as implemented through stage 3 (the
later stages are commented out in the source).  `date.today().isoformat()`
is the `todayDate` parameter; the stage callables (`get_trends`,
`create_trend_prompt ... or prev`, `query_models ... or prev`) are the
abstract `run1`/`run2`/`run3`; `mkdir` is best-effort (failures only print)
and directory creation is not tracked by the checkpoint filesystem. -/
def acta_core (rootPath thisDate semaphoreStr : Option String)
    (todayDate : String) (fs : FS) (randbits : Nat → ℤ)
    (randbelow : Nat → Nat) (run1 run2 run3 : TrendListE → RunVal) :
    Except PyErr (ℤ × FS) :=
  match rootPath with
  | none => .ok (1, fs)
  | some root =>
    if root = "" then .ok (1, fs)
    else
      let datetime_utc := match thisDate with
        | none => todayDate
        | some d => if d = "" then todayDate else d
      match (match semaphoreStr with
             | none => resolve_semaphore none
             | some s => if s = "" then resolve_semaphore none
                 else resolve_semaphore (some s)) with
      | .error e => .error e
      | .ok finalphore =>
        match hyper_random (some [.int 0, .int 47]) 1 "without"
            randbits randbelow with
        | .error e => .error e
        | .ok v1 =>
          if ¬v1.isInt then
            .error (.valueError "hyper_random did not return an integer")
          else
            match hyper_random (some [.int 0, .int 487]) 1 "without"
                randbits randbelow with
            | .error e => .error e
            | .ok v2 =>
              if ¬v2.isInt then
                .error (.valueError "hyper_random did not return an integer")
              else
                let workingPath : Option String :=
                  if finalphore 0 then some (root ++ "/" ++ datetime_utc)
                  else none
                match workingPath with
                | none => .ok (1, fs)
                | some wp =>
                  match run_or_load 1 finalphore wp "trends_1.json" {}
                      run1 fs with
                  | (.other, fs1) => .ok (1, fs1)
                  | (.tl t1, fs1) =>
                    match run_or_load 2 finalphore wp "trends_2.json" t1
                        run2 fs1 with
                    | (.other, fs2) => .ok (1, fs2)
                    | (.tl t2, fs2) =>
                      match run_or_load 3 finalphore wp "trends_3.json" t2
                          run3 fs2 with
                      | (.other, fs3) => .ok (1, fs3)
                      | (.tl _, fs3) => .ok (0, fs3)

theorem run_or_load_disabled (key : SemaphoreKey) (finalphore : SemaphoreE)
    (wp fn : String) (state : TrendListE) (run : TrendListE → RunVal)
    (fs : FS) (h : finalphore key = false) :
    ∃ t, run_or_load key finalphore wp fn state run fs = (.tl t, fs) := by
  cases hfs : fs (wp ++ "/" ++ fn) with
  | none =>
      exact ⟨state, by simp only [run_or_load, h, if_neg, Bool.false_eq_true,
        if_false, hfs]⟩
  | some c =>
      exact ⟨load_trendlist c, by simp only [run_or_load, h,
        Bool.false_eq_true, if_false, hfs]⟩

/-- C6 counterexample: with a valid root path and the semaphore string
`"1-13"` (every stage except ZERO enabled, stage runs all returning
`TrendList`s), `acta_core` aborts with return code 1 because disabling
stage ZERO leaves `working_path` unset. -/
theorem acta_core_stage_zero_counterexample :
    acta_core (some "/content") (some "2026-01-21") (some "1-13")
        "2026-02-03" (fun _ => none) (fun _ => 0) (fun _ => 0)
        (fun _ => .tl {}) (fun _ => .tl {}) (fun _ => .tl {})
      = .ok (1, fun _ => none) := rfl

/-- C6 (amended): for the implemented stages ONE–THREE, a disabled stage
flag only causes the stage to be skipped or loaded from checkpoint and
never aborts the pipeline (return code 0, filesystem untouched, the stage
callables never invoked); but disabling stage ZERO makes `acta_core`
return 1 even with a valid root path, because the `working_path` guard
fails. -/
theorem acta_core_semaphore_skip (root date sem todayDate : String) (fs : FS)
    (randbits : Nat → ℤ) (randbelow : Nat → Nat)
    (run1 run2 run3 : TrendListE → RunVal) (flags : SemaphoreE)
    (hroot : root ≠ "") (hsem : sem ≠ "")
    (hres : resolve_semaphore (some sem) = .ok flags) :
    (flags 0 = false →
      acta_core (some root) (some date) (some sem) todayDate fs randbits
        randbelow run1 run2 run3 = .ok (1, fs)) ∧
    (flags 0 = true → flags 1 = false → flags 2 = false → flags 3 = false →
      acta_core (some root) (some date) (some sem) todayDate fs randbits
        randbelow run1 run2 run3 = .ok (0, fs)) := by
  have h47 := hyper_random_pair 0 47 randbits randbelow
  have h487 := hyper_random_pair 0 487 randbits randbelow
  constructor
  · intro h0
    simp only [acta_core, if_neg hroot, if_neg hsem, hres, h47, h487,
      PyObj.isInt, h0]
    simp
  · intro h0 h1 h2 h3
    obtain ⟨t1, e1⟩ := run_or_load_disabled 1 flags
      (root ++ "/" ++ (if date = "" then todayDate else date))
      "trends_1.json" {} run1 fs h1
    obtain ⟨t2, e2⟩ := run_or_load_disabled 2 flags
      (root ++ "/" ++ (if date = "" then todayDate else date))
      "trends_2.json" t1 run2 fs h2
    obtain ⟨t3, e3⟩ := run_or_load_disabled 3 flags
      (root ++ "/" ++ (if date = "" then todayDate else date))
      "trends_3.json" t2 run3 fs h3
    simp only [acta_core, if_neg hroot, if_neg hsem, hres, h47, h487,
      PyObj.isInt, h0, if_true, e1, e2, e3]
    simp

/-- Witness for C6: the semaphore string `"0"` disables stages 1–13; the
pipeline then skips every implemented stage and exits with 0 without
touching the filesystem, and the `"1-13"` instance exits with 1. -/
theorem acta_core_semaphore_skip_witness :
    acta_core (some "/content") (some "2026-01-21") (some "0") "2026-02-03"
        (fun _ => none) (fun _ => 0) (fun _ => 0)
        (fun _ => .other) (fun _ => .other) (fun _ => .other)
      = .ok (0, fun _ => none) ∧
    acta_core (some "/content") (some "2026-01-21") (some "1-13")
        "2026-02-03" (fun _ => none) (fun _ => 0) (fun _ => 0)
        (fun _ => .other) (fun _ => .other) (fun _ => .other)
      = .ok (1, fun _ => none) := by
  constructor
  · exact (acta_core_semaphore_skip "/content" "2026-01-21" "0" "2026-02-03"
      (fun _ => none) (fun _ => 0) (fun _ => 0)
      (fun _ => .other) (fun _ => .other) (fun _ => .other)
      (fun j : Fin 14 => if j = (0 : Fin 14) then true else false)
      (by decide) (by decide) rfl).2 rfl rfl rfl rfl
  · exact (acta_core_semaphore_skip "/content" "2026-01-21" "1-13"
      "2026-02-03" (fun _ => none) (fun _ => 0) (fun _ => 0)
      (fun _ => .other) (fun _ => .other) (fun _ => .other)
      (fun j : Fin 14 =>
        if j = (13 : Fin 14) then true else
        if j = (12 : Fin 14) then true else
        if j = (11 : Fin 14) then true else
        if j = (10 : Fin 14) then true else
        if j = (9 : Fin 14) then true else
        if j = (8 : Fin 14) then true else
        if j = (7 : Fin 14) then true else
        if j = (6 : Fin 14) then true else
        if j = (5 : Fin 14) then true else
        if j = (4 : Fin 14) then true else
        if j = (3 : Fin 14) then true else
        if j = (2 : Fin 14) then true else
        if j = (1 : Fin 14) then true else false)
      (by decide) (by decide) rfl).1 rfl

/-! ## `uqbar/cli.py`: the subcommand dispatcher -/

/-- Outcome of `uqbar.cli.main`: a returned status, or an uncaught
`NameError`. -/
inductive CliResult
  | ret (status : ℤ)
  | nameError (name : String)

/-- `uqbar/cli.py`, `main`, on a non-empty `argv` (`arg0 = argv[0]`, `rest`
the remaining arguments).  Each branch composes that tool's parser and core
function (`impl name rest` abstracts `<name>(args=<tool>_parser(rest))`).
Two branches call names that are not bound anywhere in the module, which
Python resolves to a `NameError` before evaluating the arguments: the
`quincas` branch imports `quincas_core` but calls `quicas_core`, and the
`tieta` branch imports `faust_core` but calls `tieta_core`. -/
def cli_main (impl : String → List String → ℤ) (arg0 : String)
    (rest : List String) : CliResult :=
  if arg0 = "acta" then .ret (impl "acta_core" rest)
  else if arg0 = "milou" then .ret (impl "milou_core" rest)
  else if arg0 = "quincas" then .nameError "quicas_core"
  else if arg0 = "faust" then .ret (impl "faust_core" rest)
  else if arg0 = "tieta" then .nameError "tieta_core"
  else if arg0 = "default" then .ret (impl "default_core" rest)
  else .ret 1

/-- C5 (code bug): the dispatcher works as claimed for `acta`, `milou`,
`faust` and `default`, and returns 1 on any unknown first argument; but the
`quincas` and `tieta` branches raise `NameError` (`quicas_core` /
`tieta_core` are undefined in the module) instead of returning the core's
status.  The closed conjuncts evaluate the dispatcher at the failing
inputs. -/
theorem cli_main_dispatch :
    (∀ (impl : String → List String → ℤ) (rest : List String),
      cli_main impl "acta" rest = .ret (impl "acta_core" rest) ∧
      cli_main impl "milou" rest = .ret (impl "milou_core" rest) ∧
      cli_main impl "faust" rest = .ret (impl "faust_core" rest) ∧
      cli_main impl "default" rest = .ret (impl "default_core" rest) ∧
      cli_main impl "quincas" rest = .nameError "quicas_core" ∧
      cli_main impl "tieta" rest = .nameError "tieta_core") ∧
    (∀ (impl : String → List String → ℤ) (arg0 : String)
      (rest : List String),
      arg0 ∉ ["acta", "milou", "quincas", "faust", "tieta", "default"] →
      cli_main impl arg0 rest = .ret 1) ∧
    cli_main (fun _ _ => 0) "quincas" [] = .nameError "quicas_core" ∧
    cli_main (fun _ _ => 0) "tieta" [] = .nameError "tieta_core" := by
  refine ⟨fun impl rest => ⟨rfl, rfl, rfl, rfl, rfl, rfl⟩,
    fun impl arg0 rest h => ?_, rfl, rfl⟩
  simp only [List.mem_cons, List.mem_singleton, not_or] at h
  obtain ⟨n1, n2, n3, n4, n5, n6, _⟩ := h
  rw [cli_main, if_neg n1, if_neg n2, if_neg n3, if_neg n4, if_neg n5,
    if_neg n6]

/-- Witness for C5 at a concrete unknown subcommand. -/
theorem cli_main_dispatch_witness :
    cli_main (fun _ _ => 7) "bogus" ["x"] = .ret 1 :=
  cli_main_dispatch.2.1 (fun _ _ => 7) "bogus" ["x"] (by decide)

/-! ## `uqbar/acta/mood_predictor.py`: heuristic mood scoring -/

/-- `uqbar/acta/mood_predictor.py`, `_mlv`: the value (1–5) of the
`MoodLevel` bucket for a per-label score, after clamping to `[0, 1]`
(the `NaN` guard is vacuous over `ℚ`). -/
def mlv (mood : ℚ) : ℕ :=
  let m := if mood < 0 then 0 else if mood > 1 then 1 else mood
  if m ≥ 0.60 then 5
  else if m ≥ 0.35 then 4
  else if m ≥ 0.20 then 3
  else if m ≥ 0.10 then 2
  else 1

/-- The first hard guard of `choose_news_music_style` (category 18,
obituary/tribute): `_mlv(grief) in {very_high, high}` or
(`_mlv(sadness) in {very_high, high}` and `admiration + gratitude >= 0.30`). -/
def obituaryGuard (grief sadness admiration gratitude : ℚ) : Bool :=
  (mlv grief = 5 ∨ mlv grief = 4) ∨
    ((mlv sadness = 5 ∨ mlv sadness = 4) ∧ admiration + gratitude ≥ 0.30)

/-- The second hard guard of `choose_news_music_style` (category 4,
conflict/crisis). -/
def crisisGuard (fear anger sadness : ℚ) : Bool :=
  ((mlv fear = 5 ∨ mlv fear = 4) ∧ (mlv anger = 5 ∨ mlv anger = 4)) ∨
    ((mlv fear = 5 ∨ mlv fear = 4) ∧ sadness ≥ 0.25)

/-- `scores[k] += x` on the assoc-list model of the scores dict. -/
def dictAdd (d : List (ℤ × ℚ)) (k : ℤ) (x : ℚ) : List (ℤ × ℚ) :=
  d.map (fun kv => if kv.1 = k then (kv.1, kv.2 + x) else kv)

/-- `uqbar/acta/mood_predictor.py`, `_score_heuristics`: the value of the
local `scores` dict when the function body finishes (keys in insertion
order; the weight constants `_S120` … `_S010` are inlined as rationals;
`ambiguous` is the hardcoded `False` placeholder, so the `scores[22]`
bonus term is `0.0`). -/
def score_heuristics_scores (admiration amusement anger annoyance approval
    caring confusion curiosity desire disappointment disapproval disgust
    embarrassment excitement fear gratitude grief joy love nervousness
    optimism pride realization relief remorse sadness surprise neutral
    valence neutral_gate : ℚ) : List (ℤ × ℚ) :=
  let scores : List (ℤ × ℚ) :=
    [ (1, 1.20 * surprise + 0.50 * nervousness + 0.35 * fear
        + 0.25 * neutral - 0.80 * grief - 0.50 * sadness),
      (2, 1.10 * curiosity + 0.60 * realization + 0.50 * neutral
        + 0.25 * confusion - 0.35 * joy - 0.20 * amusement),
      (3, 1.00 * optimism + 0.70 * approval + 0.45 * pride
        + 0.35 * neutral - 0.60 * anger - 0.40 * disapproval),
      (5, 1.20 * neutral + 0.55 * realization + 0.25 * curiosity
        - 0.35 * surprise - 0.25 * joy - 0.25 * anger),
      (6, 0.95 * sadness + 0.75 * fear + 0.70 * remorse
        + 0.55 * disappointment + 0.25 * curiosity + 0.10 * neutral),
      (7, 1.00 * curiosity + 0.70 * surprise + 0.65 * admiration
        + 0.45 * excitement + 0.35 * joy - 0.25 * fear),
      (8, 1.00 * caring + 0.75 * gratitude + 0.55 * admiration
        + 0.45 * optimism + 0.25 * sadness - 0.30 * amusement),
      (9, 1.05 * anger + 0.80 * disapproval + 0.55 * annoyance
        + 0.35 * pride + 0.20 * optimism + 0.10 * neutral),
      (10, 0.95 * curiosity + 0.75 * excitement + 0.60 * optimism
        + 0.35 * neutral + 0.20 * surprise - 0.25 * sadness),
      (11, 1.00 * caring + 0.85 * relief + 0.60 * optimism
        + 0.35 * neutral - 0.60 * fear),
      (12, 0.90 * neutral + 0.55 * approval + 0.45 * caring
        + 0.20 * gratitude - 0.35 * anger - 0.25 * fear),
      (13, 1.10 * excitement + 0.85 * joy + 0.70 * pride
        + 0.45 * admiration - 0.35 * sadness),
      (14, 1.05 * neutral + 0.55 * approval + 0.50 * realization
        + 0.20 * curiosity - 0.35 * surprise),
      (15, 0.90 * admiration + 0.75 * amusement + 0.55 * surprise
        + 0.35 * joy + 0.15 * curiosity),
      (16, 0.95 * fear + 0.80 * disgust + 0.70 * disapproval
        + 0.65 * anger + 0.20 * neutral),
      (17, 0.95 * optimism + 0.75 * curiosity + 0.60 * approval
        + 0.40 * joy + 0.20 * neutral),
      (19, 0.95 * surprise + 0.60 * neutral + 0.55 * curiosity
        + 0.25 * fear),
      (20, 0.90 * realization + 0.45 * neutral + 0.35 * approval
        + 0.35 * disapproval + 0.20 * curiosity),
      (21, 0.50 * |valence| + 0.25 * (1.00 - neutral)),
      (22, 1.10 * neutral + 0.0) ]
  if neutral ≥ neutral_gate then
    dictAdd (dictAdd (dictAdd (dictAdd scores 5 0.20) 14 0.20) 2 0.10)
      22 0.20
  else scores

/-- `uqbar/acta/mood_predictor.py`, `_score_heuristics`: the function's
actual return value.  The body builds `scores` and then ends without a
`return` statement, so the Python function returns `None` despite its
`-> dict[int, float]` annotation. -/
def score_heuristics (admiration amusement anger annoyance approval
    caring confusion curiosity desire disappointment disapproval disgust
    embarrassment excitement fear gratitude grief joy love nervousness
    optimism pride realization relief remorse sadness surprise neutral
    valence neutral_gate : ℚ) : Option (List (ℤ × ℚ)) :=
  let _scores := score_heuristics_scores admiration amusement anger
    annoyance approval caring confusion curiosity desire disappointment
    disapproval disgust embarrassment excitement fear gratitude grief joy
    love nervousness optimism pride realization relief remorse sadness
    surprise neutral valence neutral_gate
  none

/-- C3 (code bug): the all-zero 28-score `MoodItem` trips neither the
obituary guard nor the crisis guard, so `choose_news_music_style` reaches
`scores = _score_heuristics(...)`; but `_score_heuristics` returns `None`
(its body has no `return` statement), not the dict of linear-weighted
scores its annotation and its caller (`max(scores, key=...)`, which then
raises `TypeError`) expect.  The `scores` dict the body actually computes
holds the 20 heuristic categories, e.g. a pure-surprise input scores
`1.20` for category 1. -/
theorem score_heuristics_missing_return :
    obituaryGuard 0 0 0 0 = false ∧
    crisisGuard 0 0 0 = false ∧
    score_heuristics 0 0 0 0 0 0 0 0 0 0 0 0 0 0 0 0 0 0 0 0 0 0 0 0 0 0 0 0
      0 0.30 = none ∧
    (score_heuristics_scores 0 0 0 0 0 0 0 0 0 0 0 0 0 0 0 0 0 0 0 0 0 0 0 0
      0 0 0 0 0 0.30).map Prod.fst
      = [1, 2, 3, 5, 6, 7, 8, 9, 10, 11, 12, 13, 14, 15, 16, 17, 19, 20,
         21, 22] ∧
    (score_heuristics_scores 0 0 0 0 0 0 0 0 0 0 0 0 0 0 0 0 0 0 0 0 0 0 0 0
      0 0 1 0 0 0.30).lookup 1 = some 1.20 := by
  refine ⟨by norm_num [obituaryGuard, mlv], by norm_num [crisisGuard, mlv],
    rfl, by norm_num [score_heuristics_scores],
    by norm_num [score_heuristics_scores, List.lookup]⟩

/-! ## `uqbar/acta/trend_newstext_maker.py`: choice validation -/

/-- The values `_has_only_str_and_at_least_one` traverses: strings and
(nested) lists.  In Python a `str` is itself iterable, yielding its
characters as 1-character strings. -/
inductive PyData
  | pstr (s : String)
  | plist (xs : List PyData)

/-- Outcome of evaluating a piece of Python code: normal value, raised
exception, or non-termination. -/
inductive POutcome
  | ok (b : Bool)
  | exc
  | hang

/-- Sequential `for item in lst:` over already-computed outcomes: the first
raised exception or divergence aborts the loop; if every iteration returns
normally the enclosing `while not stop` loop never terminates for an
iterable input, so the result is `hang`. -/
def firstBad : List POutcome → POutcome
  | [] => .hang
  | .ok _ :: rest => firstBad rest
  | .exc :: _ => .exc
  | .hang :: _ => .hang

/-- The items Python iterates over: a string yields its characters as
1-character strings, a list its elements. -/
def PyData.items : PyData → List PyData
  | .pstr s => s.toList.map (fun c => PyData.pstr (String.mk [c]))
  | .plist xs => xs

/-- `uqbar/acta/trend_newstext_maker.py`, `_has_only_str_and_at_least_one`
with `fmt = str`, under CPython's recursion limit (`fuel`): entering a call
at the limit raises `RecursionError` (`.exc`).  Both strings and lists are
`Iterable`, so the body recurses over the items (discarding results) and
then loops again with unchanged state: the first abnormal recursion
propagates, and if none is abnormal the `while not stop` loop spins
forever. -/
def hasOnly : Nat → PyData → POutcome
  | 0, _ => .exc
  | d + 1, data => firstBad (data.items.map (hasOnly d))

theorem hasOnly_pstr_exc (d : Nat) (s : String) (h : s.toList ≠ []) :
    hasOnly d (.pstr s) = .exc := by
  induction d generalizing s with
  | zero => rfl
  | succ d ih =>
    rw [hasOnly]
    cases hs : s.toList with
    | nil => exact absurd hs h
    | cons c cs =>
      have h1 : hasOnly d (.pstr (String.mk [c])) = .exc :=
        ih (String.mk [c]) (by simp [String.toList])
      simp only [PyData.items, hs, List.map_cons, h1, firstBad]

theorem hasOnly_strlist_exc (d : Nat) (l : List String) (hl : l ≠ [])
    (hs : ∀ x ∈ l, x.toList ≠ []) :
    hasOnly d (.plist (l.map .pstr)) = .exc := by
  cases d with
  | zero => rfl
  | succ d =>
    rw [hasOnly]
    cases l with
    | nil => exact absurd rfl hl
    | cons x xs =>
      have h1 : hasOnly d (.pstr x) = .exc :=
        hasOnly_pstr_exc d x (hs x (List.mem_cons_self x xs))
      simp only [PyData.items, List.map_cons, h1, firstBad]

/-- The nested-list shape produced by `_chunk_prompt_result`. -/
def toPyDataChunks (xs : List (List String)) : PyData :=
  .plist (xs.map (fun l => .plist (l.map .pstr)))

theorem hasOnly_chunks_exc (d : Nat) (xs : List (List String)) (h1 : xs ≠ [])
    (h2 : ∀ l ∈ xs, l ≠ [] ∧ ∀ x ∈ l, x.toList ≠ []) :
    hasOnly d (toPyDataChunks xs) = .exc := by
  cases d with
  | zero => rfl
  | succ d =>
    rw [toPyDataChunks, hasOnly]
    cases xs with
    | nil => exact absurd rfl h1
    | cons l ls =>
      have hl := h2 l (List.mem_cons_self l ls)
      have hx : hasOnly d (.plist (l.map .pstr)) = .exc :=
        hasOnly_strlist_exc d l hl.1 hl.2
      simp only [List.map_cons, PyData.items, hx, firstBad]

/-- `str.rstrip("\n")` on a character list. -/
def rstripNl (cs : List Char) : List Char :=
  (cs.reverse.dropWhile (fun c => c = '\n')).reverse

/-- `str.splitlines(keepends=True)` restricted to `\n` line boundaries. -/
def splitLinesKeep : List Char → List Char → List (List Char)
  | [], acc => if acc.isEmpty then [] else [acc.reverse]
  | c :: cs, acc =>
      if c = '\n' then (acc.reverse ++ ['\n']) :: splitLinesKeep cs []
      else splitLinesKeep cs (c :: acc)

/-- One iteration of the `_chunk_prompt_result` loop, on the state
`(result, curr)`: a blank line flushes a non-empty `curr` into `result`,
a normal line appends `line.rstrip("\n")` to `curr`. -/
def chunkStep (st : List (List String) × List String) (line : List Char) :
    List (List String) × List String :=
  if (stripChars line).isEmpty then
    if st.2.isEmpty then st else (st.1 ++ [st.2], [])
  else (st.1, st.2 ++ [String.mk (rstripNl line)])

/-- `uqbar/acta/trend_newstext_maker.py`, `_chunk_prompt_result`: chunk a
prompt result into paragraphs (lists of lines); the final `curr` is
appended if non-empty.  The `try`/`except` wrapper never fires on this pure
code path. -/
def chunkPromptResult (s : String) : List (List String) :=
  let st := (splitLinesKeep s.toList []).foldl chunkStep ([], [])
  if st.2.isEmpty then st.1 else st.1 ++ [st.2]

theorem dropWhile_head_not {p : Char → Bool} :
    ∀ (l : List Char) (a : Char) (t : List Char),
    l.dropWhile p = a :: t → p a = false := by
  intro l
  induction l with
  | nil => intro a t h; exact absurd h (by simp)
  | cons c cs ih =>
    intro a t h
    by_cases hc : p c
    · rw [List.dropWhile_cons_of_pos hc] at h
      exact ih a t h
    · rw [List.dropWhile_cons_of_neg hc] at h
      cases h
      exact Bool.of_not_eq_true hc

theorem dropWhile_all {p : Char → Bool} :
    ∀ (l : List Char), l.dropWhile p = [] → ∀ a ∈ l, p a = true := by
  intro l
  induction l with
  | nil => intro _ a ha; exact absurd ha (by simp)
  | cons c cs ih =>
    intro h a ha
    by_cases hc : p c
    · rw [List.dropWhile_cons_of_pos hc] at h
      rcases List.mem_cons.mp ha with rfl | ha2
      · exact hc
      · exact ih h a ha2
    · rw [List.dropWhile_cons_of_neg hc] at h
      exact absurd h (by simp)

theorem strip_ex_nonws (cs : List Char) (h : stripChars cs ≠ []) :
    ∃ a ∈ stripChars cs, a.isWhitespace = false := by
  rw [stripChars] at h ⊢
  cases hx : ((cs.dropWhile Char.isWhitespace).reverse.dropWhile
      Char.isWhitespace) with
  | nil => exact absurd (by rw [hx]; rfl) h
  | cons a t =>
    exact ⟨a, List.mem_reverse.mpr (List.mem_cons_self a t),
      dropWhile_head_not _ a t hx⟩

theorem strip_ne_nil_of_nonws (cs : List Char) (a : Char) (ha : a ∈ cs)
    (hw : a.isWhitespace = false) : stripChars cs ≠ [] := by
  intro h
  rw [stripChars] at h
  have h2 : (cs.dropWhile Char.isWhitespace).reverse.dropWhile
      Char.isWhitespace = [] := by
    cases hx : (cs.dropWhile Char.isWhitespace).reverse.dropWhile
        Char.isWhitespace with
    | nil => rfl
    | cons b t => rw [hx] at h; simp at h
  have h3 : ∀ b ∈ cs.dropWhile Char.isWhitespace, b.isWhitespace = true :=
    fun b hb => dropWhile_all _ h2 b (List.mem_reverse.mpr hb)
  have h4 : ∀ b ∈ cs, b.isWhitespace = true := by
    intro b hb
    rw [← List.takeWhile_append_dropWhile (p := Char.isWhitespace)
      (l := cs)] at hb
    rcases List.mem_append.mp hb with hb1 | hb2
    · exact List.mem_takeWhile_imp hb1
    · exact h3 b hb2
  rw [h4 a ha] at hw
  exact Bool.noConfusion hw

theorem splitLines_covers :
    ∀ (cs acc : List Char) (a : Char), a ∈ cs ∨ a ∈ acc →
    ∃ l ∈ splitLinesKeep cs acc, a ∈ l := by
  intro cs
  induction cs with
  | nil =>
    intro acc a ha
    rcases ha with ha | ha
    · exact absurd ha (by simp)
    · refine ⟨acc.reverse, ?_, List.mem_reverse.mpr ha⟩
      rw [splitLinesKeep]
      rw [if_neg (by cases acc with
        | nil => exact absurd ha (by simp)
        | cons x xs => simp [List.isEmpty])]
      exact List.mem_singleton.mpr rfl
  | cons c cs ih =>
    intro acc a ha
    by_cases hc : c = '\n'
    · rw [splitLinesKeep, if_pos hc]
      rcases ha with ha | ha
      · rcases List.mem_cons.mp ha with rfl | ha2
        · exact ⟨acc.reverse ++ ['\n'], List.mem_cons_self _ _,
            by rw [hc]; simp⟩
        · obtain ⟨l, hl, hal⟩ := ih [] a (Or.inl ha2)
          exact ⟨l, List.mem_cons_of_mem _ hl, hal⟩
      · exact ⟨acc.reverse ++ ['\n'], List.mem_cons_self _ _,
          List.mem_append.mpr (Or.inl (List.mem_reverse.mpr ha))⟩
    · rw [splitLinesKeep, if_neg hc]
      rcases ha with ha | ha
      · rcases List.mem_cons.mp ha with rfl | ha2
        · exact ih (a :: acc) a (Or.inr (List.mem_cons_self _ _))
        · exact ih (c :: acc) a (Or.inl ha2)
      · exact ih (c :: acc) a (Or.inr (List.mem_cons_of_mem _ ha))

/-- Invariant of the chunking state: accumulated paragraphs are non-empty
lists of non-empty lines, and the current paragraph has non-empty lines. -/
def ChunkGood (st : List (List String) × List String) : Prop :=
  (∀ l ∈ st.1, l ≠ [] ∧ ∀ x ∈ l, x.toList ≠ []) ∧
    (∀ x ∈ st.2, x.toList ≠ [])

theorem rstripNl_ne_nil (line : List Char) (h : stripChars line ≠ []) :
    rstripNl line ≠ [] := by
  intro h0
  apply h
  rw [rstripNl] at h0
  have h1 : line.reverse.dropWhile (fun c => c = '\n') = [] :=
    List.reverse_eq_nil_iff.mp h0
  have h2 : ∀ c ∈ line, c.isWhitespace = true := by
    intro c hc
    have h3 := dropWhile_all line.reverse h1 c (List.mem_reverse.mpr hc)
    have hc' : c = '\n' := by simpa using h3
    rw [hc']
    rfl
  have hin : line.dropWhile Char.isWhitespace = [] :=
    List.dropWhile_eq_nil_iff.mpr (fun x hx => h2 x hx)
  rw [stripChars, hin]
  rfl

theorem chunkStep_good (st : List (List String) × List String)
    (line : List Char) (h : ChunkGood st) : ChunkGood (chunkStep st line) := by
  unfold chunkStep
  by_cases hb : (stripChars line).isEmpty
  · rw [if_pos hb]
    by_cases hc : st.2.isEmpty
    · rw [if_pos hc]
      exact h
    · rw [if_neg hc]
      refine ⟨fun l hl => ?_, fun x hx => absurd hx (by simp)⟩
      rcases List.mem_append.mp hl with h1 | h1
      · exact h.1 l h1
      · rw [List.mem_singleton.mp h1]
        exact ⟨by simpa using hc, h.2⟩
  · rw [if_neg hb]
    refine ⟨h.1, fun x hx => ?_⟩
    rcases List.mem_append.mp hx with h1 | h1
    · exact h.2 x h1
    · rw [List.mem_singleton.mp h1]
      show (rstripNl line) ≠ []
      exact rstripNl_ne_nil line (by simpa using hb)

theorem chunkFold_good (lines : List (List Char))
    (st : List (List String) × List String) (h : ChunkGood st) :
    ChunkGood (lines.foldl chunkStep st) := by
  induction lines generalizing st with
  | nil => exact h
  | cons l ls ih => exact ih (chunkStep st l) (chunkStep_good st l h)

/-- Non-triviality of the chunking state. -/
def ChunkNE (st : List (List String) × List String) : Prop :=
  st.1 ≠ [] ∨ st.2 ≠ []

theorem chunkStep_ne (st : List (List String) × List String)
    (line : List Char) (h : ChunkNE st) : ChunkNE (chunkStep st line) := by
  unfold chunkStep
  by_cases hb : (stripChars line).isEmpty
  · rw [if_pos hb]
    by_cases hc : st.2.isEmpty
    · rw [if_pos hc]
      exact h
    · rw [if_neg hc]
      exact Or.inl (by simp)
  · rw [if_neg hb]
    exact Or.inr (by simp)

theorem chunkFold_ne (lines : List (List Char))
    (st : List (List String) × List String) (h : ChunkNE st) :
    ChunkNE (lines.foldl chunkStep st) := by
  induction lines generalizing st with
  | nil => exact h
  | cons l ls ih => exact ih (chunkStep st l) (chunkStep_ne st l h)

theorem chunkFold_ne_of_line (lines : List (List Char))
    (st : List (List String) × List String)
    (h : ∃ l ∈ lines, (stripChars l).isEmpty = false) :
    ChunkNE (lines.foldl chunkStep st) := by
  induction lines generalizing st with
  | nil =>
    obtain ⟨l, hl, _⟩ := h
    exact absurd hl (by simp)
  | cons l ls ih =>
    obtain ⟨l0, hl0, hne0⟩ := h
    by_cases hb : (stripChars l).isEmpty
    · rcases List.mem_cons.mp hl0 with rfl | h2
      · rw [hb] at hne0
        exact Bool.noConfusion hne0
      · exact ih (chunkStep st l) ⟨l0, h2, hne0⟩
    · refine chunkFold_ne ls (chunkStep st l) ?_
      unfold chunkStep
      rw [if_neg hb]
      exact Or.inr (by simp)

theorem chunkPromptResult_props (s : String)
    (hnw : ∃ a ∈ s.toList, a.isWhitespace = false) :
    chunkPromptResult s ≠ [] ∧
      ∀ l ∈ chunkPromptResult s, l ≠ [] ∧ ∀ x ∈ l, x.toList ≠ [] := by
  obtain ⟨a, ham, haw⟩ := hnw
  obtain ⟨line, hline, haline⟩ :=
    splitLines_covers s.toList [] a (Or.inl ham)
  have hlinene : (stripChars line).isEmpty = false := by
    have := strip_ne_nil_of_nonws line a haline haw
    cases hx : stripChars line with
    | nil => exact absurd hx this
    | cons c cs => rfl
  have hne : ChunkNE ((splitLinesKeep s.toList []).foldl chunkStep ([], [])) :=
    chunkFold_ne_of_line _ _ ⟨line, hline, hlinene⟩
  have hgood : ChunkGood
      ((splitLinesKeep s.toList []).foldl chunkStep ([], [])) :=
    chunkFold_good _ _ ⟨fun l hl => absurd hl (by simp),
      fun x hx => absurd hx (by simp)⟩
  rw [chunkPromptResult]
  set st := (splitLinesKeep s.toList []).foldl chunkStep ([], []) with hst
  by_cases hc : st.2.isEmpty
  · rw [if_pos hc]
    constructor
    · rcases hne with h1 | h1
      · exact h1
      · exact absurd (by simpa using hc) h1
    · exact hgood.1
  · rw [if_neg hc]
    constructor
    · simp
    · intro l hl
      rcases List.mem_append.mp hl with h1 | h1
      · exact hgood.1 l h1
      · rw [List.mem_singleton.mp h1]
        exact ⟨by simpa using hc, hgood.2⟩

theorem toList_ne_nil_of_ne_empty (r : String) (h : r ≠ "") :
    r.toList ≠ [] := by
  intro h0
  apply h
  cases r with
  | mk l =>
    have hl : l = [] := h0
    rw [hl]

/-- `keywords_raw.split(";")` (always a non-empty list of strings). -/
def splitSemi : List Char → List Char → List String
  | [], acc => [String.mk acc.reverse]
  | c :: cs, acc =>
      if c = ';' then String.mk acc.reverse :: splitSemi cs []
      else splitSemi cs (c :: acc)

/-- `results_str`: the `_clean_output` blocks (each `.strip()`-ed), filtered
to the non-empty strings (`[x for x in results_raw if isinstance(x, str)
and x]`). -/
def cleanResults (ms : List String) : List String :=
  (ms.map (fun x => String.mk (stripChars x.toList))).filter
    (fun x => x ≠ "")

/-- Outcome of the per-choice `try` block in `query_models`: normal success,
an exception caught by the `except Exception` handler, or divergence. -/
inductive ChoiceOutcome
  | success
  | caught
  | hang

/-- One iteration of the `for idx, choice in enumerate(response.choices)`
loop of `query_models`, for one choice's `message.content` (`none` covers a
missing message or non-string content).  The `ValueError`s for invalid
content / empty cleaned output, the `IndexError` for fewer than four
blocks, and any `RecursionError` from `_has_only_str_and_at_least_one`
are all caught by the handler (`.caught`); an infinite loop inside the
helper diverges (`.hang`). -/
def processChoice (findall : String → List String) (reclimit : Nat)
    (content : Option String) : ChoiceOutcome :=
  match content with
  | none => .caught
  | some c =>
    if (stripChars c.toList).isEmpty then .caught
    else if (findall c).isEmpty then .caught
    else if (cleanResults (findall c)).length < 4 then .caught
    else
      match hasOnly reclimit (toPyDataChunks
          (chunkPromptResult ((cleanResults (findall c)).headD ""))) with
      | .exc => .caught
      | .hang => .hang
      | .ok b =>
        if !b then .caught
        else
          match hasOnly reclimit (.plist ((splitSemi
              ((cleanResults (findall c)).getD 2 "").toList []).map
                .pstr)) with
          | .exc => .caught
          | .hang => .hang
          | .ok b2 => if !b2 then .caught else .success

/-- Every choice fails: the validation of `main_chunked` always raises
(`RecursionError` on the non-empty chunk structure, or `ValueError` /
`IndexError` earlier), and the exception is caught; in particular no choice
processing diverges and none succeeds. -/
theorem processChoice_caught (findall : String → List String)
    (reclimit : Nat) (content : Option String) :
    processChoice findall reclimit content = .caught := by
  match content with
  | none => rfl
  | some c =>
    simp only [processChoice]
    by_cases hb : (stripChars c.toList).isEmpty
    · rw [if_pos hb]
    · rw [if_neg hb]
      by_cases hfa : (findall c).isEmpty
      · rw [if_pos hfa]
      · rw [if_neg hfa]
        by_cases hlen : (cleanResults (findall c)).length < 4
        · rw [if_pos hlen]
        · rw [if_neg hlen]
          cases hrs : cleanResults (findall c) with
          | nil =>
            rw [hrs] at hlen
            exact absurd (by simp) hlen
          | cons r rs =>
            have hmem : r ∈ cleanResults (findall c) := by
              rw [hrs]
              exact List.mem_cons_self r rs
            rw [cleanResults] at hmem
            have hrne : r ≠ "" := by
              have h1 := List.of_mem_filter hmem
              simpa using h1
            obtain ⟨x, _, hxr⟩ := List.mem_map.mp
              (List.mem_of_mem_filter hmem)
            have hrl : r.toList = stripChars x.toList := by
              subst hxr
              rfl
            have hrnn : r.toList ≠ [] := toList_ne_nil_of_ne_empty r hrne
            have hex : ∃ a ∈ r.toList, a.isWhitespace = false := by
              rw [hrl]
              rw [hrl] at hrnn
              exact strip_ex_nonws x.toList hrnn
            have hprops := chunkPromptResult_props r hex
            have hexc : hasOnly reclimit (toPyDataChunks
                (chunkPromptResult ((r :: rs).headD ""))) = .exc :=
              hasOnly_chunks_exc reclimit _ hprops.1 hprops.2
            rw [hexc]

/-! ## `uqbar/acta/trend_newstext_maker.py`: `query_models` -/

/-- A queued trend, as far as `query_models` inspects it: its identity
(`id(trend)`) and its `tts_prompt_query` (`none` covers both `None` and
non-string values). -/
structure TrendItem where
  tid : Nat
  query : Option String

/-- The value `_perform_query_trend` returns for one call: `None` (or
anything that is not a `ChatCompletion`), or a completion carrying each
choice's `message.content`. -/
inductive PResp
  | notCompletion
  | completion (choices : List (Option String))

/-- The sequential `for idx, choice in enumerate(response.choices)` loop
over the per-choice outcomes: divergence of an iteration diverges the loop
(`none`); otherwise the result is `any_success`. -/
def scanChoices : List ChoiceOutcome → Option Bool
  | [] => some false
  | .hang :: _ => none
  | .success :: rest => (scanChoices rest).map (fun _ => true)
  | .caught :: rest => scanChoices rest

theorem scanChoices_caught (l : List ChoiceOutcome)
    (h : ∀ x ∈ l, x = .caught) : scanChoices l = some false := by
  induction l with
  | nil => rfl
  | cons x rest ih =>
    have hx : x = .caught := h x (List.mem_cons_self x rest)
    rw [hx, scanChoices]
    exact ih (fun y hy => h y (List.mem_cons_of_mem x hy))

/-- `retries_left[tid] = v` on the retry dict. -/
def updRetry (f : Nat → ℤ) (tid : Nat) (v : ℤ) : Nat → ℤ :=
  fun i => if i = tid then v else f i

theorem sum_update_lt (l : List TrendItem) (t : TrendItem) (f : Nat → ℤ)
    (h : 0 < f t.tid - 1) :
    ((l ++ [t]).map
        (fun e => (updRetry f t.tid (f t.tid - 1) e.tid).toNat)).sum
      < ((t :: l).map (fun e => (f e.tid).toNat)).sum := by
  simp only [List.map_append, List.sum_append, List.map_cons, List.sum_cons,
    List.map_nil, List.sum_nil, updRetry, eq_self_iff_true, ite_true]
  have h2 : (l.map (fun e =>
      (if e.tid = t.tid then f t.tid - 1 else f e.tid).toNat)).sum
      ≤ (l.map (fun e => (f e.tid).toNat)).sum := by
    apply List.sum_le_sum
    intro e _
    by_cases he : e.tid = t.tid
    · simp only [he, if_pos rfl]
      omega
    · simp only [if_neg he]
      omega
  omega

/-- `uqbar/acta/trend_newstext_maker.py`, `query_models`: the main
`while trend_stack` loop.  The Python deque pops from the right and
requeues with `appendleft`; here the list head is the popped end and
requeueing appends at the tail, the same rotation read in reverse.
`pick counter` abstracts `_get_model_name_and_key(user_counter + counter,
model_counter + counter, ...)` (model id, api key); `provider counter`
abstracts `_perform_query_trend`; `log` records the requeued trend ids;
the result is `none` when an iteration diverges and `some log` when the
function returns (`sleep`/printing have no effect on the state). -/
def queryModelsLoop (provider : Nat → PResp) (pick : Nat → String × String)
    (findall : String → List String) (reclimit : Nat) (maxRetries : ℤ) :
    List TrendItem → (Nat → ℤ) → Nat → List Nat → Option (List Nat)
  | [], _, _, log => some log
  | trend :: rest, retries, counter, log =>
    match trend.query with
    | none =>
        -- `trend.tts_prompt_query` is not a non-empty string: continue
        queryModelsLoop provider pick findall reclimit maxRetries rest
          retries (counter + 1) log
    | some q =>
      if (stripChars q.toList).isEmpty then
        queryModelsLoop provider pick findall reclimit maxRetries rest
          retries (counter + 1) log
      else if (pick counter).2 = "" then
        -- no API key: continue
        queryModelsLoop provider pick findall reclimit maxRetries rest
          retries (counter + 1) log
      else if (pick counter).1 = "" then
        -- invalid model id: continue
        queryModelsLoop provider pick findall reclimit maxRetries rest
          retries (counter + 1) log
      else
        match provider counter with
        | .notCompletion =>
            -- not a ChatCompletion: continue (the trend is dropped)
            queryModelsLoop provider pick findall reclimit maxRetries rest
              retries (counter + 1) log
        | .completion choices =>
          if choices.isEmpty then
            -- unusable response: decrement and requeue while retries last
            if h : 0 < retries trend.tid - 1 then
              queryModelsLoop provider pick findall reclimit maxRetries
                (rest ++ [trend])
                (updRetry retries trend.tid (retries trend.tid - 1))
                (counter + 1) (log ++ [trend.tid])
            else
              queryModelsLoop provider pick findall reclimit maxRetries rest
                (updRetry retries trend.tid (retries trend.tid - 1))
                (counter + 1) log
          else
            match scanChoices (choices.map (processChoice findall reclimit))
                with
            | none => none
            | some true =>
                -- at least one choice succeeded: reset retries
                queryModelsLoop provider pick findall reclimit maxRetries
                  rest (updRetry retries trend.tid maxRetries) (counter + 1)
                  log
            | some false =>
                if h : 0 < retries trend.tid - 1 then
                  queryModelsLoop provider pick findall reclimit maxRetries
                    (rest ++ [trend])
                    (updRetry retries trend.tid (retries trend.tid - 1))
                    (counter + 1) (log ++ [trend.tid])
                else
                  queryModelsLoop provider pick findall reclimit maxRetries
                    rest (updRetry retries trend.tid (retries trend.tid - 1))
                    (counter + 1) log
termination_by stack retries _ _ =>
  (stack.length, (stack.map (fun e => (retries e.tid).toNat)).sum)
decreasing_by
  all_goals first
    | (apply Prod.Lex.left
       simp only [List.length_cons, List.length_append]
       omega)
    | (have hl : (rest ++ [trend]).length = (trend :: rest).length := by simp
       exact hl ▸ Prod.Lex.right ((rest ++ [trend]).length)
         (sum_update_lt rest trend retries h))

/-- `uqbar/acta/trend_newstext_maker.py`, `query_models`: build the stack
from the trend list, initialize `retries_left = {id(t): max_retries
for t in trend_stack}` (`.get` defaults to 0 elsewhere), and run the loop. -/
def query_models (provider : Nat → PResp) (pick : Nat → String × String)
    (findall : String → List String) (reclimit : Nat) (maxRetries : ℤ)
    (trendList : List TrendItem) : Option (List Nat) :=
  queryModelsLoop provider pick findall reclimit maxRetries trendList
    (fun i => if i ∈ trendList.map TrendItem.tid then maxRetries else 0)
    0 []

theorem updRetry_ne (f : Nat → ℤ) (tid : Nat) (v : ℤ) (i : Nat)
    (h : i ≠ tid) : updRetry f tid v i = f i := if_neg h

theorem updRetry_same (f : Nat → ℤ) (tid : Nat) (v : ℤ) :
    updRetry f tid v tid = v := if_pos rfl

theorem count_append_one (l : List Nat) (a b : Nat) :
    (l ++ [b]).count a = l.count a + (if a = b then 1 else 0) := by
  by_cases h : a = b
  · subst h
    simp
  · simp [List.count_append, h]

/-- The loop invariant: every queued trend has at least one retry left and
has been requeued exactly `maxRetries - retries` times, and every other id
has been requeued at most `maxRetries - 1` times. -/
def QMInv (maxRetries : ℤ) (stack : List TrendItem) (retries : Nat → ℤ)
    (log : List Nat) : Prop :=
  (stack.map TrendItem.tid).Nodup ∧
  (∀ e ∈ stack, 1 ≤ retries e.tid ∧
    (log.count e.tid : ℤ) = maxRetries - retries e.tid) ∧
  (∀ i, i ∉ stack.map TrendItem.tid → (log.count i : ℤ) ≤ maxRetries - 1)

theorem inv_tail (maxRetries : ℤ) (trend : TrendItem)
    (rest : List TrendItem) (retries : Nat → ℤ) (log : List Nat)
    (h : QMInv maxRetries (trend :: rest) retries log) :
    QMInv maxRetries rest retries log := by
  obtain ⟨hnd, hq, ho⟩ := h
  simp only [List.map_cons, List.nodup_cons] at hnd
  refine ⟨hnd.2, fun e he => hq e (List.mem_cons_of_mem _ he),
    fun i hi => ?_⟩
  by_cases hit : i = trend.tid
  · subst hit
    have h1 := hq trend (List.mem_cons_self _ _)
    omega
  · apply ho
    simp only [List.map_cons, List.mem_cons]
    rintro (h2 | h2)
    · exact hit h2
    · exact hi h2

theorem inv_update_tail (maxRetries v : ℤ) (trend : TrendItem)
    (rest : List TrendItem) (retries : Nat → ℤ) (log : List Nat)
    (h : QMInv maxRetries (trend :: rest) retries log) :
    QMInv maxRetries rest (updRetry retries trend.tid v) log := by
  have htail := inv_tail maxRetries trend rest retries log h
  obtain ⟨hnd0, _, _⟩ := h
  simp only [List.map_cons, List.nodup_cons] at hnd0
  refine ⟨htail.1, fun e he => ?_, htail.2.2⟩
  have hne : e.tid ≠ trend.tid := by
    intro hx
    exact hnd0.1 (hx ▸ List.mem_map_of_mem TrendItem.tid he)
  rw [updRetry_ne retries trend.tid v e.tid hne]
  exact htail.2.1 e he

theorem inv_requeue (maxRetries : ℤ) (trend : TrendItem)
    (rest : List TrendItem) (retries : Nat → ℤ) (log : List Nat)
    (hinv : QMInv maxRetries (trend :: rest) retries log)
    (h : 0 < retries trend.tid - 1) :
    QMInv maxRetries (rest ++ [trend])
      (updRetry retries trend.tid (retries trend.tid - 1))
      (log ++ [trend.tid]) := by
  obtain ⟨hnd, hq, ho⟩ := hinv
  simp only [List.map_cons, List.nodup_cons] at hnd
  have hhead := hq trend (List.mem_cons_self _ _)
  refine ⟨?_, fun e he => ?_, fun i hi => ?_⟩
  · rw [List.map_append]
    simp only [List.map_cons, List.map_nil]
    rw [List.nodup_append]
    exact ⟨hnd.2, List.nodup_singleton _,
      fun a ha hb => hnd.1 ((List.mem_singleton.mp hb) ▸ ha)⟩
  · rcases List.mem_append.mp he with he1 | he1
    · have hne : e.tid ≠ trend.tid := by
        intro hx
        exact hnd.1 (hx ▸ List.mem_map_of_mem TrendItem.tid he1)
      rw [updRetry_ne retries trend.tid _ e.tid hne,
        count_append_one, if_neg hne]
      have := hq e (List.mem_cons_of_mem _ he1)
      push_cast
      omega
    · rw [List.mem_singleton.mp he1]
      rw [updRetry_same, count_append_one, if_pos rfl]
      push_cast
      omega
  · have hit : i ≠ trend.tid := by
      intro hx
      apply hi
      rw [List.map_append]
      exact List.mem_append.mpr (Or.inr (by simp [hx]))
    have hir : i ∉ rest.map TrendItem.tid := by
      intro hx
      apply hi
      rw [List.map_append]
      exact List.mem_append.mpr (Or.inl hx)
    rw [count_append_one, if_neg hit]
    have : (log.count i : ℤ) ≤ maxRetries - 1 := by
      apply ho
      simp only [List.map_cons, List.mem_cons]
      rintro (h2 | h2)
      · exact hit h2
      · exact hir h2
    push_cast
    omega

theorem queryModelsLoop_spec (provider : Nat → PResp)
    (pick : Nat → String × String) (findall : String → List String)
    (reclimit : Nat) (maxRetries : ℤ) (stack : List TrendItem)
    (retries : Nat → ℤ) (counter : Nat) (log : List Nat) :
    QMInv maxRetries stack retries log →
    ∃ lg, queryModelsLoop provider pick findall reclimit maxRetries stack
        retries counter log = some lg ∧
      ∀ i, (lg.count i : ℤ) ≤ maxRetries - 1 := by
  induction stack, retries, counter, log using queryModelsLoop.induct
    provider pick findall reclimit maxRetries with
  | case1 retries counter log =>
    intro hinv
    exact ⟨log, by rw [queryModelsLoop],
      fun i => hinv.2.2 i (by simp)⟩
  | case2 trend rest retries counter log hquery ih =>
    intro hinv
    obtain ⟨lg, hlg, hc⟩ := ih (inv_tail _ _ _ _ _ hinv)
    exact ⟨lg, by rw [queryModelsLoop, hquery]; exact hlg, hc⟩
  | case3 trend rest retries counter log q hquery hstrip ih =>
    intro hinv
    obtain ⟨lg, hlg, hc⟩ := ih (inv_tail _ _ _ _ _ hinv)
    exact ⟨lg, by
      rw [queryModelsLoop]
      simp only [hquery]
      rw [if_pos hstrip]
      exact hlg, hc⟩
  | case4 trend rest retries counter log q hquery hstrip hkey ih =>
    intro hinv
    obtain ⟨lg, hlg, hc⟩ := ih (inv_tail _ _ _ _ _ hinv)
    exact ⟨lg, by
      rw [queryModelsLoop]
      simp only [hquery]
      rw [if_neg hstrip, if_pos hkey]
      exact hlg, hc⟩
  | case5 trend rest retries counter log q hquery hstrip hkey hmodel ih =>
    intro hinv
    obtain ⟨lg, hlg, hc⟩ := ih (inv_tail _ _ _ _ _ hinv)
    exact ⟨lg, by
      rw [queryModelsLoop]
      simp only [hquery]
      rw [if_neg hstrip, if_neg hkey, if_pos hmodel]
      exact hlg, hc⟩
  | case6 trend rest retries counter log q hquery hstrip hkey hmodel hprov
      ih =>
    intro hinv
    obtain ⟨lg, hlg, hc⟩ := ih (inv_tail _ _ _ _ _ hinv)
    exact ⟨lg, by
      rw [queryModelsLoop]
      simp only [hquery]
      rw [if_neg hstrip, if_neg hkey, if_neg hmodel]
      simp only [hprov]
      exact hlg, hc⟩
  | case7 trend rest retries counter log q hquery hstrip hkey hmodel choices
      hprov hemp h ih =>
    intro hinv
    obtain ⟨lg, hlg, hc⟩ := ih (inv_requeue _ _ _ _ _ hinv h)
    exact ⟨lg, by
      rw [queryModelsLoop]
      simp only [hquery]
      rw [if_neg hstrip, if_neg hkey, if_neg hmodel]
      simp only [hprov]
      rw [if_pos hemp, dif_pos h]
      exact hlg, hc⟩
  | case8 trend rest retries counter log q hquery hstrip hkey hmodel choices
      hprov hemp h ih =>
    intro hinv
    obtain ⟨lg, hlg, hc⟩ :=
      ih (inv_update_tail _ _ _ _ _ _ hinv)
    exact ⟨lg, by
      rw [queryModelsLoop]
      simp only [hquery]
      rw [if_neg hstrip, if_neg hkey, if_neg hmodel]
      simp only [hprov]
      rw [if_pos hemp, dif_neg h]
      exact hlg, hc⟩
  | case9 trend rest retries counter log q hquery hstrip hkey hmodel choices
      hprov hemp hscan =>
    intro hinv
    have hcontra : scanChoices
        (choices.map (processChoice findall reclimit)) = some false :=
      scanChoices_caught _ (fun x hx => by
        obtain ⟨c, _, hcx⟩ := List.mem_map.mp hx
        rw [← hcx]
        exact processChoice_caught findall reclimit c)
    rw [hscan] at hcontra
    exact Option.noConfusion hcontra
  | case10 trend rest retries counter log q hquery hstrip hkey hmodel choices
      hprov hemp hscan ih =>
    intro hinv
    have hcontra : scanChoices
        (choices.map (processChoice findall reclimit)) = some false :=
      scanChoices_caught _ (fun x hx => by
        obtain ⟨c, _, hcx⟩ := List.mem_map.mp hx
        rw [← hcx]
        exact processChoice_caught findall reclimit c)
    rw [hscan] at hcontra
    exact absurd (Option.some.inj hcontra) (by simp)
  | case11 trend rest retries counter log q hquery hstrip hkey hmodel choices
      hprov hemp hscan h ih =>
    intro hinv
    obtain ⟨lg, hlg, hc⟩ := ih (inv_requeue _ _ _ _ _ hinv h)
    exact ⟨lg, by
      rw [queryModelsLoop]
      simp only [hquery]
      rw [if_neg hstrip, if_neg hkey, if_neg hmodel]
      simp only [hprov]
      rw [if_neg hemp]
      simp only [hscan]
      rw [dif_pos h]
      exact hlg, hc⟩
  | case12 trend rest retries counter log q hquery hstrip hkey hmodel choices
      hprov hemp hscan h ih =>
    intro hinv
    obtain ⟨lg, hlg, hc⟩ :=
      ih (inv_update_tail _ _ _ _ _ _ hinv)
    exact ⟨lg, by
      rw [queryModelsLoop]
      simp only [hquery]
      rw [if_neg hstrip, if_neg hkey, if_neg hmodel]
      simp only [hprov]
      rw [if_neg hemp]
      simp only [hscan]
      rw [dif_neg h]
      exact hlg, hc⟩

/-- **C4**: for every finite trend list and every `max_retries ≥ 1`, with
the provider call abstracted as an arbitrary function, `query_models`
terminates (returns `some log` — never hangs and never raises): each trend
whose provider call fails or yields no usable choice is requeued at most
`max_retries - 1` times before being abandoned (`log` records one entry
per requeue, so every id's count is at most `max_retries - 1`).  The
distinct Python `Trend` objects on the stack have distinct `id()` keys,
which is the `Nodup` hypothesis. -/
theorem query_models_spec (provider : Nat → PResp)
    (pick : Nat → String × String) (findall : String → List String)
    (reclimit : Nat) (maxRetries : ℤ) (trendList : List TrendItem)
    (hmr : 1 ≤ maxRetries)
    (hnd : (trendList.map TrendItem.tid).Nodup) :
    ∃ lg, query_models provider pick findall reclimit maxRetries trendList
        = some lg ∧
      ∀ i, (lg.count i : ℤ) ≤ maxRetries - 1 := by
  have hinv : QMInv maxRetries trendList
      (fun i => if i ∈ trendList.map TrendItem.tid then maxRetries else 0)
      [] := by
    refine ⟨hnd, fun e he => ?_, fun i _ => ?_⟩
    · have hm : e.tid ∈ trendList.map TrendItem.tid :=
        List.mem_map_of_mem TrendItem.tid he
      simp only [hm, ite_true, List.count_nil, Nat.cast_zero]
      omega
    · simp only [List.count_nil, Nat.cast_zero]
      omega
  exact queryModelsLoop_spec provider pick findall reclimit maxRetries
    trendList _ 0 [] hinv

theorem query_models_spec_witness :
    ∃ lg, query_models (fun _ => PResp.completion [some "x"])
        (fun _ => ("m", "k")) (fun _ => []) 100 3 [⟨7, some "go"⟩]
        = some lg ∧ ∀ i, (lg.count i : ℤ) ≤ 3 - 1 :=
  query_models_spec (fun _ => PResp.completion [some "x"])
    (fun _ => ("m", "k")) (fun _ => []) 100 3 [⟨7, some "go"⟩]
    (by decide) (by decide)

end Uqbar
